import Mathlib

/-!
# StorySparkGenerator — verification of the entity-consistency pipeline

Shallow embedding of the server-side story generation pipeline:

* the entity-consistency tracker of the `POST /api/stories` handler
  (`src/server/routes.ts`, `src/unnamed/part_006`): entity frequency,
  first-appearance page index, recurring-entity set;
* the per-page selection of entities handed to prompt composition
  (`recurringEntityObjects` / `allRelevantEntities`);
* the sequential page-generation loop with its first-image bookkeeping
  (`entityFirstImageURLs`), abort-on-error semantics and persistence;
* scene-variety directive selection (`OpenAIService.generateImagePrompt`,
  `src/unnamed/part_001`);
* prompt composition of `generateImage` (`src/unnamed/part_004`) and the
  Gemini request assembly (`GeminiService.generateImage`,
  `src/unnamed/part_003`), together with the style/color-mode constants
  (`src/server/services/constants.ts`).

JavaScript `Record<string, T>` objects are modelled as association lists in
key insertion order (writes overwrite in place, new keys append at the end),
matching the JS iteration order of `Object.entries` for the string keys used
here.  Provider calls (image generation, storage downloads) are modelled as
oracle parameters; `async` failure (`throw`) is modelled with `Except`.
-/

namespace StorySpark

/-- JS `Record<string, A>` model: association list in key insertion order.
`m[k] = v` overwrites an existing key in place, otherwise appends. -/
def updMap {α : Type} : List (String × α) → String → α → List (String × α)
  | [], k, v => [(k, v)]
  | (k0, v0) :: rest, k, v =>
    if k0 = k then (k0, v) :: rest else (k0, v0) :: updMap rest k v

/-- JS `m[k]` read: first (and, for maps built with `updMap`, only) binding. -/
def lookupMap {α : Type} : List (String × α) → String → Option α
  | [], _ => none
  | (k0, v0) :: rest, k => if k0 = k then some v0 else lookupMap rest k

/-!
## Entity-consistency tracker

From `registerRoutes` (`src/unnamed/part_006` lines 167–192,
`src/server/routes.ts` lines 77–100):

```js
generatedStory.pages.forEach((page, pageIndex) => {
  const pageEntities = page.entities || [];
  pageEntities.forEach(entityId => {
    entityFrequency[entityId] = (entityFrequency[entityId] || 0) + 1;
    if (entityFirstAppearance[entityId] === undefined) {
      entityFirstAppearance[entityId] = pageIndex;
    }
  });
});
const recurringEntities = Object.entries(entityFrequency)
  .filter(([_, count]) => count > 1)
  .map(([id]) => id);
```
-/

/-- Inner `forEach` over one page's entity-id list: bump the frequency
counter and record the first appearance if absent. -/
def trackPage :
    List String → Nat → List (String × Nat) × List (String × Nat) →
    List (String × Nat) × List (String × Nat)
  | [], _, st => st
  | e :: es, pageIndex, (freq, fa) =>
    let freq1 := updMap freq e ((lookupMap freq e).getD 0 + 1)
    let fa1 :=
      match lookupMap fa e with
      | some _ => fa
      | none => updMap fa e pageIndex
    trackPage es pageIndex (freq1, fa1)

/-- Outer `forEach` over the story's pages (each given by its entity-id
list), threading the page index. -/
def trackPages :
    List (List String) → Nat → List (String × Nat) × List (String × Nat) →
    List (String × Nat) × List (String × Nat)
  | [], _, st => st
  | p :: rest, pageIndex, st => trackPages rest (pageIndex + 1) (trackPage p pageIndex st)

/-- `entityFrequency` record after processing all pages. -/
def entityFrequency (pages : List (List String)) : List (String × Nat) :=
  (trackPages pages 0 ([], [])).1

/-- `entityFirstAppearance` record after processing all pages. -/
def entityFirstAppearance (pages : List (List String)) : List (String × Nat) :=
  (trackPages pages 0 ([], [])).2

/-- `recurringEntities`: ids whose frequency entry exceeds 1, in
`Object.entries` (= insertion) order. -/
def recurringEntities (pages : List (List String)) : List String :=
  ((entityFrequency pages).filter (fun kv => decide (1 < kv.2))).map (fun kv => kv.1)

/-- Specification-side count: number of pages whose entity-id list
contains `e`. -/
def pagesContaining (e : String) (pages : List (List String)) : Nat :=
  (pages.filter (fun p => decide (e ∈ p))).length

/-- Specification-side first appearance: index of the first page whose
entity-id list contains `e`. -/
def firstPageIdx (e : String) : List (List String) → Option Nat
  | [] => none
  | p :: rest => if e ∈ p then some 0 else (firstPageIdx e rest).map (· + 1)

/-- Total number of occurrences of `e` across all pages (what the code's
counter actually accumulates when a page lists an id twice). -/
def occTotal (e : String) (pages : List (List String)) : Nat :=
  (pages.map (fun p => p.count e)).sum

/-!
## Per-page entity selection for prompt composition

From `registerRoutes` (`src/unnamed/part_006` lines 243–257,
`src/server/routes.ts` lines 143–157):

```js
const entityDetailsMap = entities.reduce((map, entity) => {
  map[entity.id] = entity; return map; }, {});
const pagePrimaryEntities = entities.filter(entity => pageEntities.includes(entity.id));
const recurringEntityObjects = recurringEntities
  .filter(id => !pageEntities.includes(id))
  .map(id => entityDetailsMap[id])
  .filter(Boolean);
const allRelevantEntities = [...pagePrimaryEntities, ...recurringEntityObjects];
```
-/

/-- `StoryEntity` as consumed by the pipeline (the `appearsInPages`
decoration is never read by the code under verification and is elided). -/
structure StoryEntityT where
  id : String
  name : String
  type : String
  description : String
deriving DecidableEq, Repr

/-- `entities.reduce((map, entity) => { map[entity.id] = entity; return map; }, {})`. -/
def entityDetailsMap (entities : List StoryEntityT) : List (String × StoryEntityT) :=
  entities.foldl (fun m ent => updMap m ent.id ent) []

/-- `entities.filter(entity => pageEntities.includes(entity.id))`. -/
def pagePrimaryEntities (entities : List StoryEntityT) (pageEntities : List String) :
    List StoryEntityT :=
  entities.filter (fun ent => decide (ent.id ∈ pageEntities))

/-- `recurringEntities.filter(id => !pageEntities.includes(id)).map(id =>
entityDetailsMap[id]).filter(Boolean)` — `map` then `filter(Boolean)` is a
`filterMap` through the details lookup. -/
def recurringEntityObjects (pages : List (List String)) (entities : List StoryEntityT)
    (pageEntities : List String) : List StoryEntityT :=
  ((recurringEntities pages).filter (fun i => decide (i ∉ pageEntities))).filterMap
    (fun i => lookupMap (entityDetailsMap entities) i)

/-- `[...pagePrimaryEntities, ...recurringEntityObjects]`. -/
def allRelevantEntities (pages : List (List String)) (entities : List StoryEntityT)
    (pageEntities : List String) : List StoryEntityT :=
  pagePrimaryEntities entities pageEntities ++ recurringEntityObjects pages entities pageEntities

/-!
## Sequential page-generation loop

From `registerRoutes` (`src/unnamed/part_006` lines 221–373).  The provider
call `generateImage(...)` is an oracle `gen : Nat → Except String (String ×
Option String)` taking the page index and returning either the thrown error
message or `(imageUrl, revised_prompt)`.  The `entityGenerationIds` and
`characterReferenceImages` accumulators are elided: `entityGenerationIds`
starts empty and `generateImage` only ever echoes it back
(`generatedIds: {...entityReferenceIds}`), so it stays empty for the whole
run, and `characterReferenceImages` is never read after being written.
-/

/-- One generated page as pushed onto `storyPagesWithImages`. -/
structure StoryPageT where
  pageNumber : Nat
  text : String
  imageUrl : String
  imagePrompt : String
  entities : List String
deriving DecidableEq, Repr

/-- One page of `generatedStory.pages` as consumed by the loop. -/
structure GenPage where
  text : String
  imagePrompt : String
  entities : List String
deriving DecidableEq, Repr

/-- The `for (let index = 0; ...)` loop: on success record the image URL for
every entity making its first appearance on this page and push the completed
page; on a thrown provider error the whole loop aborts. -/
def storyLoop (fa : List (String × Nat)) (gen : Nat → Except String (String × Option String)) :
    List GenPage → Nat → List (String × String) → List StoryPageT →
    Except String (List StoryPageT × List (String × String))
  | [], _, urls, acc => .ok (acc, urls)
  | page :: rest, index, urls, acc =>
    match gen index with
    | .error msg => .error msg
    | .ok (imageUrl, revisedPrompt) =>
      let firstAppearanceEntities :=
        page.entities.filter (fun e => decide (lookupMap fa e = some index))
      let urls1 := firstAppearanceEntities.foldl (fun m e => updMap m e imageUrl) urls
      storyLoop fa gen rest (index + 1) urls1
        (acc ++ [{ pageNumber := index + 1, text := page.text, imageUrl,
                   imagePrompt := revisedPrompt.getD page.imagePrompt,
                   entities := page.entities }])

/-- Success-path specialization of `storyLoop`: the state reached when every
provider call succeeds, page `i` yielding image URL `imgOf i` (used to state
the first-write-wins property of `entityFirstImageURLs`). -/
def storyLoopOk (fa : List (String × Nat)) (imgOf : Nat → String) :
    List GenPage → Nat → List (String × String) → List StoryPageT →
    List StoryPageT × List (String × String)
  | [], _, urls, acc => (acc, urls)
  | page :: rest, index, urls, acc =>
    let firstAppearanceEntities :=
      page.entities.filter (fun e => decide (lookupMap fa e = some index))
    let urls1 := firstAppearanceEntities.foldl (fun m e => updMap m e (imgOf index)) urls
    storyLoopOk fa imgOf rest (index + 1) urls1
      (acc ++ [{ pageNumber := index + 1, text := page.text, imageUrl := imgOf index,
                 imagePrompt := page.imagePrompt, entities := page.entities }])

/-- `entityFirstImageURLs` state after the first `k` pages have been
processed with an always-succeeding provider returning `imgOf i` for page
`i` (the success path of the loop). -/
def urlsAfter (genPages : List GenPage) (imgOf : Nat → String) (k : Nat) :
    List (String × String) :=
  match storyLoop (entityFirstAppearance (genPages.map (fun p => p.entities)))
      (fun i => .ok (imgOf i, none)) (genPages.take k) 0 [] [] with
  | .ok r => r.2
  | .error _ => []

/-- Stored story record (`storage.createStory` row). -/
structure StoryT where
  id : Nat
  title : String
  description : String
  storyType : String
  ageRange : String
  artStyle : String
  layoutType : String
  pages : List StoryPageT
  entities : List StoryEntityT
deriving DecidableEq, Repr

/-- Form fields of the request body used by the handler. -/
structure StoryForm where
  title : String
  description : String
  storyType : String
  ageRange : String
  artStyle : String
  layoutType : String
deriving DecidableEq, Repr

/-- `stories` table model: rows plus the next auto-increment id. -/
structure StorageState where
  stories : List StoryT
  nextId : Nat
deriving DecidableEq, Repr

/-- `storage.createStory`: insert a row with a fresh id. -/
def createStory (st : StorageState) (form : StoryForm) (pages : List StoryPageT)
    (entities : List StoryEntityT) : StorageState × StoryT :=
  let story : StoryT :=
    { id := st.nextId, title := form.title, description := form.description,
      storyType := form.storyType, ageRange := form.ageRange,
      artStyle := form.artStyle, layoutType := form.layoutType, pages, entities }
  ({ stories := st.stories ++ [story], nextId := st.nextId + 1 }, story)

/-- HTTP response shape of the handler: status, `message`, and the `error`
field of the 500 body (`error.message` of the caught exception). -/
structure HttpResp where
  status : Nat
  message : String
  errorMsg : Option String
deriving DecidableEq, Repr

/-- `POST /api/stories` handler core (after story text extraction): run the
page loop; on success persist the story and answer 201; on a thrown error
leave storage untouched and answer 500 with the exception's message. -/
def postStories (st : StorageState) (form : StoryForm) (genPages : List GenPage)
    (entities : List StoryEntityT)
    (gen : Nat → Except String (String × Option String)) : StorageState × HttpResp :=
  match storyLoop (entityFirstAppearance (genPages.map (fun p => p.entities)))
      gen genPages 0 [] [] with
  | .error msg => (st, { status := 500, message := "Failed to create story", errorMsg := some msg })
  | .ok (pagesWithImages, _) =>
    let (st1, _) := createStory st form pagesWithImages entities
    (st1, { status := 201, message := "", errorMsg := none })

/-!
## Scene-variety directive selection

From `OpenAIService.generateImagePrompt` (`src/unnamed/part_001` lines
191–232): camera-angle and pose lists, the `interiorPageIndex` cycling, and
the fixed opening/final compositions.
-/

/-- `CAMERA_ANGLES` (`src/unnamed/part_001`). -/
def CAMERA_ANGLES : List String :=
  ["wide establishing shot showing the full scene",
   "medium shot focusing on character interactions",
   "close-up on character faces showing emotions",
   "bird\u0027s-eye view looking down on the scene",
   "low angle looking up at characters",
   "over-the-shoulder perspective",
   "dynamic diagonal composition"]

/-- `POSE_VARIETY` (`src/unnamed/part_001`). -/
def POSE_VARIETY : List String :=
  ["characters in motion/action",
   "characters interacting with objects",
   "characters gesturing expressively",
   "characters in relaxed/casual poses",
   "characters showing strong emotions through body language"]

/-- `const interiorPageIndex = Math.max(0, pageNum - 2);` (JS numbers can go
negative, hence the explicit `Int` detour). -/
def interiorPageIndex (pageNum : Nat) : Nat :=
  (max 0 ((pageNum : Int) - 2)).toNat

/-- `CAMERA_ANGLES[interiorPageIndex % CAMERA_ANGLES.length]`. -/
def cameraAngle (pageNum : Nat) : String :=
  CAMERA_ANGLES.getD (interiorPageIndex pageNum % CAMERA_ANGLES.length) ""

/-- `POSE_VARIETY[interiorPageIndex % POSE_VARIETY.length]`. -/
def poseStyle (pageNum : Nat) : String :=
  POSE_VARIETY.getD (interiorPageIndex pageNum % POSE_VARIETY.length) ""

/-- The three directives `generateImagePrompt` interpolates into the image
prompt request. -/
structure SceneDirectives where
  sceneVariation : String
  compositionGuidance : String
  poseDirective : String
deriving DecidableEq, Repr

/-- The `if (pageNum === 1) ... else if (pageNum === totalPages) ... else ...`
selection of `sceneVariation` / `compositionGuidance`, with `poseStyle`
computed unconditionally. -/
def sceneDirectives (pageNum totalPages : Nat) : SceneDirectives :=
  if pageNum = 1 then
    { sceneVariation :=
        "This is the OPENING scene - establish the setting and introduce main characters.",
      compositionGuidance := "wide establishing shot showing the full scene and environment",
      poseDirective := poseStyle pageNum }
  else if pageNum = totalPages then
    { sceneVariation :=
        "This is the FINAL scene - create a satisfying, conclusive image. Characters should appear resolved/happy.",
      compositionGuidance := "warm, uplifting composition focusing on character emotions",
      poseDirective := poseStyle pageNum }
  else
    { sceneVariation :=
        "This is an INTERIOR scene (page " ++ toString pageNum ++ " of " ++
          toString totalPages ++ "). Make this visually DISTINCT from other pages.",
      compositionGuidance := cameraAngle pageNum,
      poseDirective := poseStyle pageNum }


/-!
## String helpers shared by the prompt-composition embedding

JS string operations used by `generateImage` / `GeminiService` modelled on
`List Char` (`String.length` is modelled as code-point count; all strings
involved are ASCII, where this coincides with JS UTF-16 length).
-/

/-- `s.toLowerCase()` (ASCII). -/
def toLowerStr (s : String) : String := ⟨s.data.map Char.toLower⟩

/-- Match `needle` at the head of `hay`, returning the remainder. -/
def dropPre : List Char → List Char → Option (List Char)
  | [], s => some s
  | _ :: _, [] => none
  | a :: as, c :: cs => if a = c then dropPre as cs else none

/-- `hay.includes(needle)`. -/
def containsSub : List Char → List Char → Bool
  | needle, [] => (dropPre needle ([] : List Char)).isSome
  | needle, hay@(_ :: t) => (dropPre needle hay).isSome || containsSub needle t

/-- `hay.includes(needle)` on `String`. -/
def strIncludes (hay needle : String) : Bool := containsSub needle.data hay.data

/-- `s.trim()` (JS whitespace set approximated by `Char.isWhitespace`). -/
def trimStr (s : String) : String :=
  ⟨((s.data.dropWhile Char.isWhitespace).reverse.dropWhile Char.isWhitespace).reverse⟩

/-- `arr.join(sep)`. -/
def joinSep (sep : String) : List String → String
  | [] => ""
  | [s] => s
  | s :: rest => s ++ sep ++ joinSep sep rest

/-- A JS `\w` character: `[A-Za-z0-9_]`. -/
def isWordChar (c : Char) : Bool :=
  (('a' ≤ c && c ≤ 'z') || ('A' ≤ c && c ≤ 'Z') || ('0' ≤ c && c ≤ '9') || c = '_')

/-- `split(/[.!?]+/)`: split on maximal runs of sentence punctuation,
keeping leading/trailing empty fields as JS does.  `cur` is the reversed
current field; `skipping` is true while inside a separator run (whose field
has already been emitted). -/
def splitSepsGo : Bool → List Char → List Char → List (List Char)
  | skipping, [], cur => if skipping then [[]] else [cur.reverse]
  | skipping, c :: rest, cur =>
    if c = '.' || c = '!' || c = '?' then
      if skipping then splitSepsGo true rest []
      else cur.reverse :: splitSepsGo true rest []
    else
      if skipping then splitSepsGo false rest [c]
      else splitSepsGo false rest (c :: cur)

/-- `description.split(/[.!?]+/)` as strings. -/
def splitSentences (s : String) : List String :=
  (splitSepsGo false s.data []).map (fun l => (⟨l⟩ : String))

/-- One position of `/\b(w1|w2|...)\b/g`: try the alternatives in order;
an alternative matches when it is a prefix of `s` and is followed by a
non-word character (trailing `\b`; the leading `\b` is checked by the
caller).  Empty alternatives are skipped (none occur in the source). -/
def tryAlts (alts : List (List Char)) (s : List Char) : Option (List Char) :=
  match alts with
  | [] => none
  | [] :: rest => tryAlts rest s
  | a :: rest =>
    match dropPre a s with
    | some rem =>
      match rem.head? with
      | none => some a
      | some c => if isWordChar c then tryAlts rest s else some a
    | none => tryAlts rest s

/-- Global scan of `/\b(w1|w2|...)\b/g`: at each position with a word
boundary on the left, emit the first matching alternative and resume after
it; otherwise advance one character.  `fuel` bounds the number of steps
(each step strictly shortens the text, so `text.length` suffices); the
fuel recursion keeps the definition structural and hence computable by
reduction. -/
def scanWordsGo (alts : List (List Char)) : Nat → Bool → List Char → List (List Char)
  | 0, _, _ => []
  | _ + 1, _, [] => []
  | fuel + 1, prevWord, c :: rest =>
    if prevWord then scanWordsGo alts fuel (isWordChar c) rest
    else
      match tryAlts alts (c :: rest) with
      | some w => w :: scanWordsGo alts fuel true ((c :: rest).drop (max 1 w.length))
      | none => scanWordsGo alts fuel (isWordChar c) rest

/-- `s.match(/\b(w1|...)\b/g) || []` as a list of matched words. -/
def regexWordMatches (words : List String) (s : String) : List String :=
  (scanWordsGo (words.map (fun w => w.data)) s.data.length false s.data).map
    (fun l => (⟨l⟩ : String))

/-- JS `str || dflt` for strings (empty string is falsy). -/
def jsOrStr (s dflt : String) : String := if s = "" then dflt else s

/-- JS `opt || dflt` for an optional string field. -/
def jsOrOptStr (o : Option String) (dflt : String) : String :=
  match o with
  | none => dflt
  | some s => jsOrStr s dflt

/-!
## Style & color-mode constants (`src/server/services/constants.ts`)
-/

def ART_STYLE_DESCRIPTIONS : List (String × String) :=
  [("anime",
    "Japanese anime style with:\n- Large expressive eyes with detailed highlights and reflections\n- Soft, smooth skin shading with cel-shaded shadows\n- Vibrant, saturated colors with high contrast\n- Clean, bold outlines with varying line weights\n- Dynamic poses and exaggerated expressions\n- Simplified but elegant backgrounds with soft gradients\n- Hair rendered with flowing strands and glossy highlights\n- Characters with slim proportions and pointed chins"),
   ("watercolor",
    "Traditional watercolor painting style with:\n- Soft, wet-on-wet blending with visible paint bleeds\n- Translucent, layered washes of color\n- Subtle color variations within areas (granulation)\n- Soft, undefined edges that fade into white paper\n- Gentle brushstrokes visible in texture\n- Muted, pastel color palette with organic tones\n- Loose, sketchy linework or no outlines\n- White spaces left for highlights (paper showing through)\n- Dreamy, ethereal atmosphere"),
   ("3d_cartoon",
    "Pixar/Disney-style 3D animated look with:\n- Smooth, rounded forms with subsurface scattering on skin\n- Exaggerated proportions (large heads, big eyes)\n- Soft ambient occlusion and global illumination\n- Rich, saturated colors with subtle gradients\n- Clean, polished surfaces with subtle texture\n- Expressive, squash-and-stretch style poses\n- Soft shadows and rim lighting\n- Stylized but realistic materials\n- Warm, inviting lighting like animated films"),
   ("pixel_art",
    "Retro pixel art style with:\n- Limited color palette (8-16 colors maximum)\n- Clear individual pixels visible (no anti-aliasing)\n- Dithering patterns for shading and gradients\n- Bold, simple shapes defined by pixel placement\n- Nostalgic 16-bit video game aesthetic\n- Black or dark outlines around characters\n- Flat colors with minimal shading\n- Chunky, blocky character designs\n- Simple backgrounds with repeating tile patterns"),
   ("comic_book",
    "Classic comic book illustration style with:\n- Bold, confident black ink outlines\n- Ben-Day dots or halftone patterns for shading\n- Flat, solid color fills with limited palette\n- Dynamic action poses and dramatic angles\n- Speed lines and motion effects\n- Strong shadows with hard edges\n- Expressive, exaggerated facial features\n- Panel-ready composition with clear focal points\n- Pop art influence with bold primary colors"),
   ("minimalist_caricature",
    "Minimalist caricature style with:\n- Simple, clean lines with minimal detail\n- Exaggerated facial features and proportions\n- Bold, confident single-weight outlines\n- Large heads with simplified body shapes\n- Flat colors with no gradients or shading\n- Distinctive, memorable character silhouettes\n- Playful, whimsical expressions\n- Minimal background elements\n- Focus on key identifying features"),
   ("line_art",
    "Pure line art illustration style with:\n- Clean, precise ink lines as the primary element\n- No color fills, only outlines and strokes\n- Varying line weights for depth and emphasis\n- Cross-hatching or stippling for shading\n- White background with black lines\n- Elegant, detailed linework\n- Professional illustration quality\n- Clear, readable compositions\n- Artistic pen and ink aesthetic"),
   ("stick_man",
    "Simple stick figure illustration style with:\n- Basic stick figure representations of people\n- Circle heads with simple dot eyes and curved smile\n- Single lines for arms, legs, and body\n- Very simple, child-like drawing style\n- Minimal detail, maximum clarity\n- Basic shapes for objects and backgrounds\n- Black lines on white background\n- Playful, accessible aesthetic\n- Easy to understand visual storytelling"),
   ("gouache_texture",
    "Gouache and textured painting style with:\n- Rich, opaque paint with visible brushwork\n- Layered textures and impasto effects\n- Matte, velvety finish characteristic of gouache\n- Bold, saturated colors with depth\n- Visible brush strokes adding character\n- Paper or canvas texture showing through\n- Traditional illustration book quality\n- Warm, cozy feeling with organic textures\n- Hand-painted, artisanal appearance")]

/-- `style.toLowerCase().replace(/\s+/g, '_')`: maximal whitespace runs
become single underscores (`inRun` is true while inside a whitespace run
whose underscore has already been emitted). -/
def replaceWsRunsGo : Bool → List Char → List Char
  | _, [] => []
  | inRun, c :: rest =>
    if c.isWhitespace then
      if inRun then replaceWsRunsGo true rest
      else '_' :: replaceWsRunsGo true rest
    else c :: replaceWsRunsGo false rest

/-- `getArtStyleDescription` (`src/server/services/constants.ts`). -/
def getArtStyleDescription (style : String) : String :=
  let normalizedStyle : String := ⟨replaceWsRunsGo false (toLowerStr style).data⟩
  (lookupMap ART_STYLE_DESCRIPTIONS normalizedStyle).getD
    (style ++ " illustration style with bright, child-friendly colors")

/-- `getColorModeDescription` (`src/server/services/constants.ts`
lines 108–115). -/
def getColorModeDescription (colorMode : String) : String :=
  if colorMode = "monochrome" then
    "IMPORTANT: Create this illustration in BLACK AND WHITE / MONOCHROME only. \nUse only grayscale values - pure black, pure white, and shades of gray.\nNo color whatsoever. Think classic black and white book illustrations."
  else ""

/-!
## `generateImage` prompt composition (`src/unnamed/part_004`)
-/

/-- `GenerateImageOptions` of `src/unnamed/part_004`; optional fields model
`field?:` properties, which `generateImage` resolves with `|| dflt`. -/
structure GenerateImageOptions where
  prompt : String
  entityReferenceIds : Option (List (String × String)) := none
  artStyle : Option String := none
  colorMode : Option String := none
  entities : Option (List StoryEntityT) := none
  characterReferenceURLs : Option (List (String × String)) := none
  characterReferencePaths : Option (List String) := none
  isFirstPage : Option Bool := none

/-- `options.artStyle || 'colorful'`. -/
def resolvedArtStyle (opts : GenerateImageOptions) : String :=
  jsOrOptStr opts.artStyle "colorful"

/-- `options.colorMode || 'color'`. -/
def resolvedColorMode (opts : GenerateImageOptions) : String :=
  jsOrOptStr opts.colorMode "color"

/-- `options.entities || []`. -/
def resolvedEntities (opts : GenerateImageOptions) : List StoryEntityT :=
  opts.entities.getD []

/-- `options.isFirstPage || false`. -/
def resolvedIsFirstPage (opts : GenerateImageOptions) : Bool :=
  opts.isFirstPage.getD false

/-- `options.characterReferenceURLs || {}`. -/
def resolvedRefURLs (opts : GenerateImageOptions) : List (String × String) :=
  opts.characterReferenceURLs.getD []

/-- `options.characterReferencePaths || []` (before the URL fallback). -/
def resolvedRefPaths0 (opts : GenerateImageOptions) : List String :=
  opts.characterReferencePaths.getD []

/-- `attributeKeywords` of `GeminiService.extractVisualAttributes`
(`src/unnamed/part_003`). -/
def ATTRIBUTE_KEYWORDS : List String :=
  ["hair", "eyes", "face", "skin", "clothing", "outfit", "wears", "wearing",
   "hat", "color", "height", "tall", "short", "medium", "build", "age",
   "young", "old", "middle-aged", "child", "adult", "teen", "appearance"]

/-- `GeminiService.extractVisualAttributes` (`src/unnamed/part_003`):
sentences of the description that mention a visual-attribute keyword,
trimmed, deduplicated, in first-hit order. -/
def extractVisualAttributes (description : String) : List String :=
  let sentences := splitSentences description
  sentences.foldl (fun attributes sentence =>
    ATTRIBUTE_KEYWORDS.foldl (fun attributes keyword =>
      if strIncludes (toLowerStr sentence) keyword then
        let cleanSentence := trimStr sentence
        if cleanSentence ≠ "" ∧ cleanSentence ∉ attributes then
          attributes ++ [cleanSentence]
        else attributes
      else attributes) attributes) []

/-- `MAX_DESCRIPTION_LENGTH` (`src/unnamed/part_004`). -/
def MAX_DESCRIPTION_LENGTH : Nat := 100

/-- `MAX_CHARACTERS` (`src/unnamed/part_004`). -/
def MAX_CHARACTERS : Nat := 3

/-- The entity-details enhancement of the base prompt (`src/unnamed/part_004`
lines 155–196): CHARACTERS / SETTING / OBJECTS sections appended to
`finalPrompt` when any entities were passed. -/
def enhanceWithEntities (finalPrompt : String) (entities : List StoryEntityT) : String :=
  if entities.isEmpty then finalPrompt
  else
    let characters := entities.filter (fun e => decide (e.type = "character"))
    let locations := entities.filter (fun e => decide (e.type = "location"))
    let objects := entities.filter (fun e => decide (e.type = "object"))
    let charSection :=
      if characters.isEmpty then ""
      else
        "\n\nCHARACTERS:" ++
        String.join ((characters.take MAX_CHARACTERS).map (fun char =>
          let attributes := (extractVisualAttributes char.description).take 2
          let keyAttributes :=
            if attributes.isEmpty then (⟨char.description.data.take MAX_DESCRIPTION_LENGTH⟩ : String)
            else joinSep ". " attributes
          "\n- " ++ char.name ++ ": " ++ keyAttributes)) ++
        (if MAX_CHARACTERS < characters.length then
          "\n- Others: " ++ joinSep ", " ((characters.drop MAX_CHARACTERS).map (fun c => c.name))
        else "")
    let locSection :=
      if locations.isEmpty then ""
      else "\n\nSETTING: " ++ joinSep ", " (locations.map (fun l => l.name))
    let objSection :=
      if objects.isEmpty then ""
      else "\n\nOBJECTS: " ++ joinSep ", " (objects.map (fun o => o.name))
    finalPrompt ++ charSection ++ locSection ++ objSection

/-- `MAX_PROMPT_LENGTH` (`src/unnamed/part_004`). -/
def MAX_PROMPT_LENGTH : Nat := 1000

/-- `WRAPPER_LENGTH` (`src/unnamed/part_004`). -/
def WRAPPER_LENGTH : Nat := 200

/-- `const availableLength = MAX_PROMPT_LENGTH - WRAPPER_LENGTH;`. -/
def availableLength : Nat := MAX_PROMPT_LENGTH - WRAPPER_LENGTH

/-- `finalPrompt.length > availableLength ? finalPrompt.substring(0,
availableLength - 3) + "..." : finalPrompt`. -/
def trimmedFinalPrompt (finalPrompt : String) : String :=
  if availableLength < finalPrompt.length then
    (⟨finalPrompt.data.take (availableLength - 3)⟩ : String) ++ "..."
  else finalPrompt

/-- Color keywords of the `characterConsistencyBlock` regex. -/
def COLOR_WORDS : List String :=
  ["red", "blue", "green", "yellow", "orange", "purple", "pink", "brown",
   "black", "white", "gray", "silver", "gold", "rainbow", "metallic"]

/-- Shape keywords of the `characterConsistencyBlock` regex. -/
def SHAPE_WORDS : List String :=
  ["round", "square", "tall", "short", "thin", "thick", "small", "large",
   "compact", "sleek", "curved", "angular"]

/-- Material/texture classification of a (lower-cased) description:
sequential `if` overrides, later hits win. -/
def materialClass (desc : String) : String :=
  let m1 := "standard"
  let m2 :=
    if strIncludes desc "metal" || strIncludes desc "robot" || strIncludes desc "droid" then
      "metallic/robotic"
    else m1
  let m3 := if strIncludes desc "fur" || strIncludes desc "furry" then "furry" else m2
  if strIncludes desc "feather" then "feathered" else m3

/-- Colors listed for one character: first three whole-word color matches. -/
def primaryColorsOf (char : StoryEntityT) : String :=
  jsOrStr (joinSep ", " ((regexWordMatches COLOR_WORDS (toLowerStr char.description)).take 3))
    "vibrant colors"

/-- Body shape listed for one character: first two whole-word shape matches. -/
def bodyShapeOf (char : StoryEntityT) : String :=
  jsOrStr (joinSep ", " ((regexWordMatches SHAPE_WORDS (toLowerStr char.description)).take 2))
    "distinctive shape"

/-- One `name: colors | shape | material` line of the consistency block. -/
def charConsistencyLine (char : StoryEntityT) : String :=
  char.name ++ ": " ++ primaryColorsOf char ++ " | " ++ bodyShapeOf char ++ " | " ++
    materialClass (toLowerStr char.description) ++ "\n"

/-- `characterConsistencyBlock` (`src/unnamed/part_004` lines 205–231):
the header, one line per character appended by the `forEach`, then the
maintain-exact-appearance footer. -/
def characterConsistencyBlock (characterEntities : List StoryEntityT) : String :=
  if characterEntities.isEmpty then ""
  else
    (characterEntities.foldl (fun block char => block ++ charConsistencyLine char)
      "\n\nCHARACTER DESIGN SPECIFICATIONS:\n") ++
    "\nMAINTAIN EXACT APPEARANCE: Colors, shapes, and materials must be identical in every scene.\n"

/-- `entities.filter(e => e.type === 'character')` as used for the
consistency block and for `characterNames`. -/
def characterEntitiesOf (opts : GenerateImageOptions) : List StoryEntityT :=
  (resolvedEntities opts).filter (fun e => decide (e.type = "character"))

/-- The enhanced base prompt fed to the length trim. -/
def finalPromptOf (opts : GenerateImageOptions) : String :=
  enhanceWithEntities opts.prompt (resolvedEntities opts)

/-- Shared head of the `wrappedPrompt` template literals
(`src/unnamed/part_004` lines 234–272). -/
def WP_HEADER : String :=
  "\nCreate a children's book illustration.\n\n=== ART STYLE (MUST FOLLOW EXACTLY) ===\n"

/-- First-page template segment between the style description and the
trimmed scene text. -/
def WP_FIRST_MID : String :=
  "\n\nIMPORTANT: This is the FIRST page - establish definitive character designs that will be maintained throughout the story.\n\n=== SCENE ===\n"

/-- First-page requirements tail. -/
def WP_FIRST_REQS : String :=
  "\n\n=== REQUIREMENTS ===\n- Child-friendly illustration suitable for a storybook\n- Clear, distinctive character features\n- The art style characteristics listed above are MANDATORY\n- Every visual element must reflect the specified style\n"

/-- Non-first-page segment before the interpolated character names. -/
def WP_CRITICAL_PRE : String := "\n\nCRITICAL: Characters ("

/-- Non-first-page segment after the character names. -/
def WP_CRITICAL_POST : String :=
  ") must appear EXACTLY as established in previous illustrations.\n\n=== SCENE ===\n"

/-- Non-first-page requirements tail. -/
def WP_MATCH_REQS : String :=
  "\n\n=== REQUIREMENTS ===\n- Every visual detail of each character must match their previous appearances precisely\n- Child-friendly illustration suitable for a storybook\n- The art style characteristics listed above are MANDATORY\n- Every visual element must reflect the specified style\n"

/-- The sentence of the first-page template instructing the provider to
establish the character designs. -/
def ESTABLISH_DIRECTIVE : String :=
  "IMPORTANT: This is the FIRST page - establish definitive character designs that will be maintained throughout the story."

/-- The sentence of the non-first-page template instructing the provider to
match the previously established appearances. -/
def MATCH_DIRECTIVE : String :=
  "must appear EXACTLY as established in previous illustrations."

/-- The `wrappedPrompt` template, branching on `isFirstPage`
(`src/unnamed/part_004` lines 234–272), assembled from the segments
above exactly as the source template literals interleave them. -/
def wrappedPromptBase (opts : GenerateImageOptions) : String :=
  let styleDescription := getArtStyleDescription (resolvedArtStyle opts)
  let trimmed := trimmedFinalPrompt (finalPromptOf opts)
  let block := characterConsistencyBlock (characterEntitiesOf opts)
  if resolvedIsFirstPage opts then
    WP_HEADER ++ styleDescription ++ WP_FIRST_MID ++ trimmed ++ block ++ WP_FIRST_REQS
  else
    let characterNames := joinSep ", " ((characterEntitiesOf opts).map (fun e => e.name))
    WP_HEADER ++ styleDescription ++ WP_CRITICAL_PRE ++ characterNames ++ WP_CRITICAL_POST
      ++ trimmed ++ block ++ WP_MATCH_REQS

/-- The URL fallback for reference paths (`src/unnamed/part_004`
lines 274–277): when no paths were passed but reference URLs exist, use up
to three of the URL values. -/
def resolvedRefPaths (opts : GenerateImageOptions) : List String :=
  let paths := resolvedRefPaths0 opts
  if paths.length = 0 ∧ 0 < (resolvedRefURLs opts).length then
    ((resolvedRefURLs opts).map (fun kv => kv.2)).take 3
  else paths

/-- The instruction prepended when reference images are present
(`src/unnamed/part_004` lines 279–282). -/
def REFERENCE_INSTRUCTION : String :=
  "Use the reference image(s) above as strict visual references for the characters.\n\n"

/-- The final prompt handed to `geminiService.generateImage`. -/
def finalWrappedPrompt (opts : GenerateImageOptions) : String :=
  if 0 < (resolvedRefPaths opts).length then
    REFERENCE_INSTRUCTION ++ wrappedPromptBase opts
  else wrappedPromptBase opts

/-!
## Gemini request assembly (`src/unnamed/part_003`)
-/

/-- The object literal passed to `geminiService.generateImage`.  The
`colorMode` property is present on the runtime object but
`GeminiImageOptions` has no such field and `GeminiService.generateImage`
never reads it. -/
structure GeminiImageRequest where
  prompt : String
  referenceImagePaths : List String
  colorMode : String
deriving DecidableEq, Repr

/-- The request `generateImage` builds (`src/unnamed/part_004`
lines 284–290). -/
def geminiRequestOf (opts : GenerateImageOptions) : GeminiImageRequest :=
  { prompt := finalWrappedPrompt opts,
    referenceImagePaths := resolvedRefPaths opts,
    colorMode := resolvedColorMode opts }

/-- One element of the `contents` array sent to the provider (base64
encoding of image buffers elided: the part carries the downloaded bytes). -/
inductive ContentPart where
  | image (bytes : String)
  | text (prompt : String)
deriving DecidableEq, Repr

/-- The reference-image download loop (`src/unnamed/part_003` lines 37–53):
each path is downloaded inside `try`; a failed download is logged and
skipped. `download` is the `storageService.downloadImage` oracle. -/
def geminiRefParts (download : String → Except String String) :
    List String → List ContentPart
  | [] => []
  | imagePath :: rest =>
    match download imagePath with
    | .ok buf => ContentPart.image buf :: geminiRefParts download rest
    | .error _ => geminiRefParts download rest

/-- The full `contents` array: reference images first, then the prompt
(`contents.push(prompt)`). -/
def geminiContents (req : GeminiImageRequest) (download : String → Except String String) :
    List ContentPart :=
  geminiRefParts download req.referenceImagePaths ++ [ContentPart.text req.prompt]

/-- One part of a Gemini response candidate (`inlineData.data` when
present). -/
structure GeminiPart where
  inlineData : Option String
deriving DecidableEq, Repr

/-- One response candidate; `content` is `none` when `content` or
`content.parts` is missing. -/
structure GeminiCandidate where
  content : Option (List GeminiPart)
deriving DecidableEq, Repr

/-- A provider response. -/
structure GeminiResponse where
  candidates : Option (List GeminiCandidate)
deriving DecidableEq, Repr

/-- The `for (const part of content.parts)` scan for the first part with
inline image data. -/
def firstInlineData : List GeminiPart → Option String
  | [] => none
  | part :: rest =>
    match part.inlineData with
    | some data => some data
    | none => firstInlineData rest

/-- `GeminiService.generateImage` (`src/unnamed/part_003` lines 27–94):
assemble `contents`, call the provider, extract the first inline image,
upload it; any thrown error is wrapped by the `catch` block.  `provider`
and `upload` are oracles for the network call and
`storageService.uploadImage`. -/
def geminiGenerateImage (req : GeminiImageRequest)
    (download : String → Except String String)
    (provider : List ContentPart → Except String GeminiResponse)
    (upload : String → String) : Except String String :=
  let body : Except String String :=
    match provider (geminiContents req download) with
    | .error e => .error e
    | .ok response =>
      match response.candidates with
      | none => .error "No candidates returned from Gemini"
      | some [] => .error "No candidates returned from Gemini"
      | some (c :: _) =>
        match c.content with
        | none => .error "No content parts in Gemini response"
        | some parts =>
          match firstInlineData parts with
          | some data => .ok (upload data)
          | none => .error "No image data found in Gemini response"
  match body with
  | .ok url => .ok url
  | .error msg => .error ("Failed to generate image with Gemini: " ++ msg)



/-!
## Lemmas: the JS record model
-/

theorem lookup_updMap {α : Type} (m : List (String × α)) (k : String) (v : α) (k2 : String) :
    lookupMap (updMap m k v) k2 = if k = k2 then some v else lookupMap m k2 := by
  induction m with
  | nil => by_cases h : k = k2 <;> simp [updMap, lookupMap, h]
  | cons kv rest ih =>
    obtain ⟨k0, v0⟩ := kv
    by_cases h0 : k0 = k
    · subst h0
      by_cases h2 : k0 = k2 <;> simp [updMap, lookupMap, h2]
    · by_cases h2 : k0 = k2
      · subst h2
        simp [updMap, lookupMap, h0, Ne.symm h0]
      · simp [updMap, lookupMap, h0, h2, ih]

theorem lookup_none_iff {α : Type} (m : List (String × α)) (k : String) :
    lookupMap m k = none ↔ k ∉ m.map Prod.fst := by
  induction m with
  | nil => simp [lookupMap]
  | cons kv rest ih =>
    obtain ⟨k0, v0⟩ := kv
    by_cases h : k0 = k
    · subst h
      simp [lookupMap]
    · simp [lookupMap, h, ih, Ne.symm h]

theorem keys_updMap {α : Type} (m : List (String × α)) (k : String) (v : α) :
    (updMap m k v).map Prod.fst =
      if (lookupMap m k).isSome then m.map Prod.fst else m.map Prod.fst ++ [k] := by
  induction m with
  | nil => simp [updMap, lookupMap]
  | cons kv rest ih =>
    obtain ⟨k0, v0⟩ := kv
    by_cases h : k0 = k
    · subst h
      simp [updMap, lookupMap]
    · simp only [updMap, if_neg h, List.map_cons, ih, lookupMap]
      by_cases h2 : (lookupMap rest k).isSome <;> simp [h, h2]

theorem nodup_keys_updMap {α : Type} (m : List (String × α)) (k : String) (v : α)
    (h : (m.map Prod.fst).Nodup) : ((updMap m k v).map Prod.fst).Nodup := by
  rw [keys_updMap]
  by_cases h0 : (lookupMap m k).isSome
  · simpa [h0]
  · have hk : k ∉ m.map Prod.fst := by
      rw [← lookup_none_iff]
      cases hl : lookupMap m k
      · rfl
      · simp [hl] at h0
    simp only [h0, if_neg, Bool.false_eq_true, not_false_iff]
    rw [List.nodup_append]
    refine ⟨h, List.nodup_singleton k, ?_⟩
    intro a ha hak
    rw [List.mem_singleton] at hak
    exact hk (hak ▸ ha)

theorem mem_iff_lookup_of_nodup {α : Type} (m : List (String × α)) (k : String) (v : α)
    (h : (m.map Prod.fst).Nodup) : (k, v) ∈ m ↔ lookupMap m k = some v := by
  induction m with
  | nil => simp [lookupMap]
  | cons kv rest ih =>
    obtain ⟨k0, v0⟩ := kv
    simp only [List.map_cons, List.nodup_cons] at h
    by_cases hk : k0 = k
    · subst hk
      constructor
      · intro hmem
        rcases List.mem_cons.mp hmem with heq | hmem2
        · have hv : v = v0 := (Prod.ext_iff.mp heq).2
          simp [lookupMap, hv]
        · exact absurd (List.mem_map_of_mem Prod.fst hmem2) h.1
      · intro hl
        have hv : v0 = v := by simpa [lookupMap] using hl
        exact List.mem_cons.mpr (Or.inl (by rw [Prod.ext_iff]; exact ⟨rfl, hv.symm⟩))
    · simp only [lookupMap, if_neg hk, List.mem_cons]
      rw [← ih h.2]
      constructor
      · rintro (heq | hmem)
        · exact absurd ((Prod.ext_iff.mp heq).1).symm hk
        · exact hmem
      · exact Or.inr

/-!
## Lemmas: the entity-consistency tracker
-/

theorem trackPage_fst_getD (es : List String) (i : Nat) (f a : List (String × Nat)) (e : String) :
    (lookupMap (trackPage es i (f, a)).1 e).getD 0 = (lookupMap f e).getD 0 + es.count e := by
  induction es generalizing f a with
  | nil => simp [trackPage]
  | cons e2 es ih =>
    simp only [trackPage]
    rw [ih, lookup_updMap]
    by_cases h : e2 = e
    · subst h
      simp [List.count_cons]
      omega
    · simp [h, List.count_cons, Ne.symm h]

theorem trackPage_fst_none (es : List String) (i : Nat) (f a : List (String × Nat)) (e : String) :
    lookupMap (trackPage es i (f, a)).1 e = none ↔ lookupMap f e = none ∧ e ∉ es := by
  induction es generalizing f a with
  | nil => simp [trackPage]
  | cons e2 es ih =>
    simp only [trackPage]
    rw [ih, lookup_updMap]
    by_cases h : e2 = e
    · subst h
      simp
    · simp only [if_neg h, List.mem_cons]
      constructor
      · rintro ⟨h1, h2⟩
        exact ⟨h1, by rintro (rfl | hm) <;> simp_all⟩
      · rintro ⟨h1, h2⟩
        exact ⟨h1, fun hm => h2 (Or.inr hm)⟩

theorem trackPage_snd (es : List String) (i : Nat) (f a : List (String × Nat)) (e : String) :
    lookupMap (trackPage es i (f, a)).2 e =
      match lookupMap a e with
      | some v => some v
      | none => if e ∈ es then some i else none := by
  induction es generalizing f a with
  | nil =>
    cases h : lookupMap a e <;> simp [trackPage, h]
  | cons e2 es ih =>
    simp only [trackPage]
    cases h2 : lookupMap a e2 with
    | some v2 =>
      rw [ih]
      cases h : lookupMap a e with
      | some v => simp [h]
      | none =>
        have hne : e2 ≠ e := fun hx => by rw [hx, h] at h2; cases h2
        have hne2 : ¬ e = e2 := fun hx => hne (Eq.symm hx)
        simp [h, List.mem_cons, hne2]
    | none =>
      rw [ih, lookup_updMap]
      by_cases h : e2 = e
      · subst h
        simp [h2]
      · have hne2 : ¬ e = e2 := fun hx => h (Eq.symm hx)
        cases hl : lookupMap a e <;>
          simp [if_neg h, hl, List.mem_cons, hne2]

theorem trackPage_fst_nodup (es : List String) (i : Nat) (f a : List (String × Nat))
    (h : (f.map Prod.fst).Nodup) : ((trackPage es i (f, a)).1.map Prod.fst).Nodup := by
  induction es generalizing f a with
  | nil => simpa [trackPage]
  | cons e2 es ih =>
    simp only [trackPage]
    cases lookupMap a e2 <;> exact ih _ _ (nodup_keys_updMap _ _ _ h)

theorem trackPages_fst_getD (pages : List (List String)) (i : Nat)
    (st : List (String × Nat) × List (String × Nat)) (e : String) :
    (lookupMap (trackPages pages i st).1 e).getD 0 =
      (lookupMap st.1 e).getD 0 + occTotal e pages := by
  induction pages generalizing i st with
  | nil => simp [trackPages, occTotal]
  | cons p pages ih =>
    obtain ⟨f, a⟩ := st
    simp only [trackPages]
    rw [ih, trackPage_fst_getD]
    simp [occTotal]
    omega

theorem trackPages_fst_none (pages : List (List String)) (i : Nat)
    (st : List (String × Nat) × List (String × Nat)) (e : String) :
    lookupMap (trackPages pages i st).1 e = none ↔
      lookupMap st.1 e = none ∧ occTotal e pages = 0 := by
  induction pages generalizing i st with
  | nil => simp [trackPages, occTotal]
  | cons p pages ih =>
    obtain ⟨f, a⟩ := st
    simp only [trackPages]
    rw [ih, trackPage_fst_none]
    simp only [occTotal, List.map_cons, List.sum_cons]
    constructor
    · rintro ⟨⟨h1, h2⟩, h3⟩
      refine ⟨h1, ?_⟩
      rw [List.count_eq_zero.mpr h2]
      simpa [occTotal] using h3
    · rintro ⟨h1, h23⟩
      have hc : p.count e = 0 ∧ occTotal e pages = 0 := by
        simp only [occTotal] at h23 ⊢
        omega
      exact ⟨⟨h1, List.count_eq_zero.mp hc.1⟩, by simpa [occTotal] using hc.2⟩

theorem trackPages_snd (pages : List (List String)) (i : Nat)
    (st : List (String × Nat) × List (String × Nat)) (e : String) :
    lookupMap (trackPages pages i st).2 e =
      match lookupMap st.2 e with
      | some v => some v
      | none => (firstPageIdx e pages).map (fun j => j + i) := by
  induction pages generalizing i st with
  | nil =>
    cases h : lookupMap st.2 e <;> simp [trackPages, firstPageIdx, h]
  | cons p pages ih =>
    obtain ⟨f, a⟩ := st
    simp only [trackPages]
    rw [ih, trackPage_snd]
    by_cases hp : e ∈ p
    · cases h : lookupMap a e <;> simp [h, hp, firstPageIdx]
    · cases h : lookupMap a e with
      | some v => simp [h]
      | none =>
        simp only [h, firstPageIdx, if_neg hp]
        cases hfp : firstPageIdx e pages with
        | none => rfl
        | some j =>
          simp
          omega

theorem trackPages_fst_nodup (pages : List (List String)) (i : Nat)
    (st : List (String × Nat) × List (String × Nat))
    (h : (st.1.map Prod.fst).Nodup) : ((trackPages pages i st).1.map Prod.fst).Nodup := by
  induction pages generalizing i st with
  | nil => simpa [trackPages]
  | cons p pages ih =>
    obtain ⟨f, a⟩ := st
    simp only [trackPages]
    exact ih _ _ (trackPage_fst_nodup _ _ _ _ h)

theorem entityFrequency_lookup (pages : List (List String)) (e : String) :
    lookupMap (entityFrequency pages) e =
      if occTotal e pages = 0 then none else some (occTotal e pages) := by
  unfold entityFrequency
  by_cases h : occTotal e pages = 0
  · rw [if_pos h]
    exact (trackPages_fst_none pages 0 ([], []) e).mpr ⟨rfl, h⟩
  · rw [if_neg h]
    have hg := trackPages_fst_getD pages 0 ([], []) e
    have hn : ¬ lookupMap (trackPages pages 0 ([], [])).1 e = none := by
      rw [trackPages_fst_none]
      simp [h]
    cases hl : lookupMap (trackPages pages 0 ([], [])).1 e with
    | none => exact absurd hl hn
    | some n =>
      rw [hl] at hg
      simp only [Option.getD_some, lookupMap, Option.getD_none] at hg
      rw [hg]
      simp

theorem entityFirstAppearance_lookup (pages : List (List String)) (e : String) :
    lookupMap (entityFirstAppearance pages) e = firstPageIdx e pages := by
  unfold entityFirstAppearance
  rw [trackPages_snd]
  show (match (none : Option Nat) with
    | some v => some v
    | none => (firstPageIdx e pages).map (fun j => j + 0)) = firstPageIdx e pages
  cases h : firstPageIdx e pages <;> simp

theorem entityFrequency_keys_nodup (pages : List (List String)) :
    ((entityFrequency pages).map Prod.fst).Nodup := by
  unfold entityFrequency
  exact trackPages_fst_nodup pages 0 ([], []) (by simp)

theorem mem_recurring_iff (pages : List (List String)) (e : String) :
    e ∈ recurringEntities pages ↔ 1 < occTotal e pages := by
  unfold recurringEntities
  constructor
  · intro hmem
    obtain ⟨kv, hkv, hfst⟩ := List.mem_map.mp hmem
    obtain ⟨hkvm, hdec⟩ := List.mem_filter.mp hkv
    obtain ⟨k, n⟩ := kv
    simp only at hfst
    rw [hfst] at hkvm
    have hl := (mem_iff_lookup_of_nodup _ e n (entityFrequency_keys_nodup pages)).mp hkvm
    rw [entityFrequency_lookup] at hl
    by_cases h0 : occTotal e pages = 0
    · rw [if_pos h0] at hl
      cases hl
    · rw [if_neg h0] at hl
      have : n = occTotal e pages := by injection hl with hx; exact hx.symm
      subst this
      simpa using hdec
  · intro h
    refine List.mem_map.mpr ⟨(e, occTotal e pages), List.mem_filter.mpr ⟨?_, by simpa using h⟩, rfl⟩
    refine (mem_iff_lookup_of_nodup _ e _ (entityFrequency_keys_nodup pages)).mpr ?_
    rw [entityFrequency_lookup, if_neg (by omega)]

theorem firstPageIdx_eq_some_iff (pages : List (List String)) (e : String) (i : Nat) :
    firstPageIdx e pages = some i ↔
      e ∈ pages.getD i [] ∧ ∀ j < i, e ∉ pages.getD j [] := by
  induction pages generalizing i with
  | nil => simp [firstPageIdx]
  | cons p pages ih =>
    by_cases hp : e ∈ p
    · simp only [firstPageIdx, if_pos hp]
      constructor
      · intro h
        have hi : i = 0 := by injection h with h2; omega
        subst hi
        exact ⟨hp, fun j hj => absurd hj (Nat.not_lt_zero j)⟩
      · rintro ⟨h1, h2⟩
        cases i with
        | zero => rfl
        | succ n => exact absurd hp (h2 0 (Nat.succ_pos n))
    · simp only [firstPageIdx, if_neg hp]
      cases i with
      | zero => simp [hp]
      | succ n =>
        have hsh : (p :: pages).getD (n + 1) [] = pages.getD n [] := rfl
        rw [hsh]
        constructor
        · intro h
          obtain ⟨j, hj, hj2⟩ := Option.map_eq_some'.mp h
          have hjn : j = n := by omega
          subst hjn
          obtain ⟨h1, h2⟩ := (ih _).mp hj
          refine ⟨h1, fun j2 hj3 => ?_⟩
          cases j2 with
          | zero => exact hp
          | succ m => exact h2 m (by omega)
        · rintro ⟨h1, h2⟩
          have hrec := (ih n).mpr ⟨h1, fun j hj => h2 (j + 1) (by omega)⟩
          rw [hrec]
          rfl

theorem firstPageIdx_eq_none_iff (pages : List (List String)) (e : String) :
    firstPageIdx e pages = none ↔ ∀ p ∈ pages, e ∉ p := by
  induction pages with
  | nil => simp [firstPageIdx]
  | cons p pages ih =>
    by_cases hp : e ∈ p <;> simp [firstPageIdx, hp, ih]

theorem pagesContaining_eq_zero_iff (pages : List (List String)) (e : String) :
    pagesContaining e pages = 0 ↔ ∀ p ∈ pages, e ∉ p := by
  unfold pagesContaining
  rw [List.length_eq_zero, List.filter_eq_nil_iff]
  simp

theorem occTotal_eq_zero_iff (pages : List (List String)) (e : String) :
    occTotal e pages = 0 ↔ ∀ p ∈ pages, e ∉ p := by
  unfold occTotal
  rw [List.sum_eq_zero_iff]
  simp only [List.mem_map, forall_exists_index, and_imp]
  constructor
  · intro h p hp
    exact List.count_eq_zero.mp (h _ p hp rfl)
  · rintro h n p hp rfl
    exact List.count_eq_zero.mpr (h p hp)

theorem occTotal_eq_pagesContaining (pages : List (List String)) (e : String)
    (h : ∀ p ∈ pages, p.Nodup) : occTotal e pages = pagesContaining e pages := by
  induction pages with
  | nil => simp [occTotal, pagesContaining]
  | cons p pages ih =>
    have hp := h p (List.mem_cons_self p pages)
    have hrest : ∀ q ∈ pages, q.Nodup := fun q hq => h q (List.mem_cons_of_mem _ hq)
    have htail := ih hrest
    simp only [occTotal, pagesContaining, List.map_cons, List.sum_cons, List.filter_cons] at htail ⊢
    by_cases hm : e ∈ p
    · have hc : p.count e = 1 := List.count_eq_one_of_mem hp hm
      simp [hm, hc, htail]
      omega
    · have hc : p.count e = 0 := List.count_eq_zero.mpr hm
      simp [hm, hc, htail]

/-- **C1** — For every extracted page list (with each page's `entityIds`
a set, i.e. duplicate-free), the tracker computes `frequency[e]` as the
number of pages whose entity-id list contains `e` (and no entry at all for
an entity on zero pages), `firstAppearance[e]` as the lowest page index at
which `e` appears (an index `i` such that `e` is on page `i` and on no
earlier page), and `recurring` as exactly the entities with
`frequency[e] > 1`; an entity appearing on zero pages is absent from all
three results, and the computation is total (no crash). -/
theorem tracker_analyze_correct (pages : List (List String)) (e : String)
    (hnd : ∀ p ∈ pages, p.Nodup) :
    lookupMap (entityFrequency pages) e =
        (if pagesContaining e pages = 0 then none else some (pagesContaining e pages))
      ∧ (∀ i, lookupMap (entityFirstAppearance pages) e = some i ↔
          e ∈ pages.getD i [] ∧ ∀ j < i, e ∉ pages.getD j [])
      ∧ (e ∈ recurringEntities pages ↔ 1 < pagesContaining e pages)
      ∧ (pagesContaining e pages = 0 →
          lookupMap (entityFrequency pages) e = none
          ∧ lookupMap (entityFirstAppearance pages) e = none
          ∧ e ∉ recurringEntities pages) := by
  have hocc := occTotal_eq_pagesContaining pages e hnd
  refine ⟨?_, ?_, ?_, ?_⟩
  · rw [entityFrequency_lookup, hocc]
  · intro i
    rw [entityFirstAppearance_lookup, firstPageIdx_eq_some_iff]
  · rw [mem_recurring_iff, hocc]
  · intro h0
    refine ⟨?_, ?_, ?_⟩
    · rw [entityFrequency_lookup, hocc, if_pos h0]
    · rw [entityFirstAppearance_lookup, firstPageIdx_eq_none_iff]
      exact (pagesContaining_eq_zero_iff pages e).mp h0
    · rw [mem_recurring_iff, hocc]
      omega

/-- Witness for C1 at a concrete three-page story: `fox` appears on pages
0 and 2 (frequency 2, first appearance 0, recurring); `ghost` appears on
no page and is absent everywhere. -/
theorem tracker_analyze_correct_witness :
    lookupMap (entityFrequency [["fox", "tree"], ["bird"], ["fox"]]) "fox" = some 2
      ∧ lookupMap (entityFirstAppearance [["fox", "tree"], ["bird"], ["fox"]]) "fox" = some 0
      ∧ "fox" ∈ recurringEntities [["fox", "tree"], ["bird"], ["fox"]]
      ∧ lookupMap (entityFrequency [["fox", "tree"], ["bird"], ["fox"]]) "ghost" = none
      ∧ "ghost" ∉ recurringEntities [["fox", "tree"], ["bird"], ["fox"]] := by
  have hfox := tracker_analyze_correct [["fox", "tree"], ["bird"], ["fox"]] "fox" (by decide)
  have hghost := tracker_analyze_correct [["fox", "tree"], ["bird"], ["fox"]] "ghost" (by decide)
  refine ⟨?_, ?_, ?_, ?_, ?_⟩
  · rw [hfox.1]
    decide
  · rw [(hfox.2.1 0)]
    decide
  · exact (hfox.2.2.1).mpr (by decide)
  · exact (hghost.2.2.2 (by decide)).1
  · exact (hghost.2.2.2 (by decide)).2.2

/-!
## Lemmas: per-page entity selection (C2)
-/

theorem lookup_details_foldl_some (l : List StoryEntityT) (m : List (String × StoryEntityT))
    (i : String) (ent : StoryEntityT)
    (h : lookupMap (l.foldl (fun m ent => updMap m ent.id ent) m) i = some ent) :
    (ent.id = i ∧ ent ∈ l) ∨ lookupMap m i = some ent := by
  induction l generalizing m with
  | nil => exact Or.inr h
  | cons e2 l ih =>
    simp only [List.foldl_cons] at h
    rcases ih _ h with ⟨h1, h2⟩ | h3
    · exact Or.inl ⟨h1, List.mem_cons_of_mem _ h2⟩
    · rw [lookup_updMap] at h3
      by_cases he : e2.id = i
      · rw [if_pos he] at h3
        injection h3 with h4
        subst h4
        exact Or.inl ⟨he, List.mem_cons_self e2 l⟩
      · rw [if_neg he] at h3
        exact Or.inr h3

theorem lookup_entityDetailsMap_some (entities : List StoryEntityT) (i : String)
    (ent : StoryEntityT) (h : lookupMap (entityDetailsMap entities) i = some ent) :
    ent.id = i ∧ ent ∈ entities := by
  rcases lookup_details_foldl_some entities [] i ent h with h1 | h2
  · exact h1
  · simp [lookupMap] at h2

theorem lookup_details_foldl_isSome (l : List StoryEntityT)
    (m : List (String × StoryEntityT)) (i : String)
    (h : (lookupMap m i).isSome = true ∨ i ∈ l.map (fun ent => ent.id)) :
    (lookupMap (l.foldl (fun m ent => updMap m ent.id ent) m) i).isSome = true := by
  induction l generalizing m with
  | nil =>
    rcases h with h | h
    · exact h
    · simp at h
  | cons e2 l ih =>
    simp only [List.foldl_cons]
    apply ih
    rcases h with h | h
    · left
      rw [lookup_updMap]
      by_cases he : e2.id = i <;> simp [he, h]
    · simp only [List.map_cons, List.mem_cons] at h
      rcases h with h | h
      · left
        rw [lookup_updMap, if_pos h.symm]
        rfl
      · exact Or.inr h

theorem lookup_entityDetailsMap_isSome (entities : List StoryEntityT) (i : String)
    (h : i ∈ entities.map (fun ent => ent.id)) :
    (lookupMap (entityDetailsMap entities) i).isSome = true :=
  lookup_details_foldl_isSome entities [] i (Or.inr h)

/-- **C2** — For every page `k` of the story (whose listed entity ids all
exist in the extracted entity set), the id set of the entities handed to
prompt composition (`allRelevantEntities`) is exactly the page's own ids
together with every recurring id; in particular a recurring entity is
included even on pages whose own list omits it. -/
theorem entities_for_prompt_correct (pages : List (List String))
    (entities : List StoryEntityT) (k : Nat) (eid : String)
    (hids : ∀ p ∈ pages, ∀ i ∈ p, i ∈ entities.map (fun ent => ent.id)) :
    eid ∈ (allRelevantEntities pages entities (pages.getD k [])).map (fun ent => ent.id) ↔
      eid ∈ pages.getD k [] ∨ eid ∈ recurringEntities pages := by
  constructor
  · intro hmem
    rw [allRelevantEntities, List.map_append, List.mem_append] at hmem
    rcases hmem with hmem | hmem
    · obtain ⟨ent, hent, hid⟩ := List.mem_map.mp hmem
      have hf := List.mem_filter.mp hent
      left
      rw [← hid]
      simpa using hf.2
    · obtain ⟨ent, hent, hid⟩ := List.mem_map.mp hmem
      obtain ⟨i2, hi2, hlk⟩ := List.mem_filterMap.mp hent
      obtain ⟨hi2r, _⟩ := List.mem_filter.mp hi2
      have hid2 := (lookup_entityDetailsMap_some entities i2 ent hlk).1
      right
      rw [← hid, hid2]
      exact hi2r
  · intro hmem
    by_cases hin : eid ∈ pages.getD k []
    · have hklen : k < pages.length := by
        by_contra hk
        rw [List.getD_eq_default _ _ (by omega)] at hin
        cases hin
      have hpmem : pages.getD k [] ∈ pages := by
        rw [List.getD_eq_getElem _ _ hklen]
        exact List.getElem_mem hklen
      have hide : eid ∈ entities.map (fun ent => ent.id) :=
        hids (pages.getD k []) hpmem eid hin
      obtain ⟨ent, hent, hentid⟩ := List.mem_map.mp hide
      rw [allRelevantEntities, List.map_append, List.mem_append]
      left
      exact List.mem_map.mpr ⟨ent, List.mem_filter.mpr ⟨hent, by rw [hentid]; simpa using hin⟩, hentid⟩
    · rcases hmem with hin2 | hrec
      · exact absurd hin2 hin
      · have hocc : 1 < occTotal eid pages := (mem_recurring_iff pages eid).mp hrec
        have hexp : ∃ p ∈ pages, eid ∈ p := by
          by_contra hno
          push_neg at hno
          have h0 := (occTotal_eq_zero_iff pages eid).mpr hno
          omega
        obtain ⟨p, hpp, hpin⟩ := hexp
        have hide := hids p hpp eid hpin
        have hsome := lookup_entityDetailsMap_isSome entities eid hide
        obtain ⟨ent, hent⟩ := Option.isSome_iff_exists.mp hsome
        have hid := (lookup_entityDetailsMap_some entities eid ent hent).1
        rw [allRelevantEntities, List.map_append, List.mem_append]
        right
        refine List.mem_map.mpr ⟨ent, ?_, hid⟩
        refine List.mem_filterMap.mpr ⟨eid, ?_, hent⟩
        refine List.mem_filter.mpr ⟨hrec, by simpa using hin⟩

/-- Witness for C2: in a three-page story where `fox` recurs on pages 0
and 2 but is not listed on page 1, `fox` is nevertheless among the
entities handed to prompt composition for page 1. -/
theorem entities_for_prompt_correct_witness :
    "fox" ∈ (allRelevantEntities [["fox"], ["bird"], ["fox"]]
        [⟨"fox", "Fox", "character", "a red fox"⟩,
         ⟨"bird", "Bird", "character", "a blue bird"⟩]
        ([["fox"], ["bird"], ["fox"]].getD 1 [])).map (fun ent => ent.id) :=
  (entities_for_prompt_correct [["fox"], ["bird"], ["fox"]]
      [⟨"fox", "Fox", "character", "a red fox"⟩,
       ⟨"bird", "Bird", "character", "a blue bird"⟩] 1 "fox"
      (by decide)).mpr (Or.inr (by decide))

/-!
## Lemmas: the sequential page loop (C3, C4)
-/

theorem lookup_foldl_upd (l : List String) (urls : List (String × String)) (u : String)
    (x : String) :
    lookupMap (l.foldl (fun m e => updMap m e u) urls) x =
      if x ∈ l then some u else lookupMap urls x := by
  induction l generalizing urls with
  | nil => simp
  | cons e l ih =>
    simp only [List.foldl_cons]
    rw [ih]
    rw [lookup_updMap]
    by_cases hx : x ∈ l
    · simp [hx, List.mem_cons]
    · by_cases he : e = x
      · simp [hx, he, List.mem_cons]
      · have he2 : ¬ x = e := fun h2 => he h2.symm
        simp [hx, he, he2, List.mem_cons]

theorem storyLoop_ok_eq (fa : List (String × Nat)) (imgOf : Nat → String)
    (ps : List GenPage) (idx : Nat) (urls : List (String × String)) (acc : List StoryPageT) :
    storyLoop fa (fun i => .ok (imgOf i, none)) ps idx urls acc =
      .ok (storyLoopOk fa imgOf ps idx urls acc) := by
  induction ps generalizing idx urls acc with
  | nil => rfl
  | cons page rest ih => simp only [storyLoop, storyLoopOk, Option.getD_none, ih]

theorem storyLoopOk_urls_none (fa : List (String × Nat)) (imgOf : Nat → String)
    (ps : List GenPage) (idx : Nat) (urls : List (String × String)) (acc : List StoryPageT)
    (e : String) (hfa : lookupMap fa e = none) :
    lookupMap (storyLoopOk fa imgOf ps idx urls acc).2 e = lookupMap urls e := by
  induction ps generalizing idx urls acc with
  | nil => rfl
  | cons page rest ih =>
    simp only [storyLoopOk]
    rw [ih]
    rw [lookup_foldl_upd]
    have hnm : e ∉ page.entities.filter (fun e => decide (lookupMap fa e = some idx)) := by
      intro hm
      have := (List.mem_filter.mp hm).2
      rw [hfa] at this
      simp at this
    simp [hnm]

theorem storyLoopOk_urls_some (fa : List (String × Nat)) (imgOf : Nat → String)
    (ps : List GenPage) (idx : Nat) (urls : List (String × String)) (acc : List StoryPageT)
    (e : String) (i : Nat) (hfa : lookupMap fa e = some i) :
    lookupMap (storyLoopOk fa imgOf ps idx urls acc).2 e =
      if idx ≤ i ∧ i - idx < ps.length ∧
          e ∈ (ps.getD (i - idx) ⟨"", "", []⟩).entities then
        some (imgOf i)
      else lookupMap urls e := by
  induction ps generalizing idx urls acc with
  | nil =>
    have : ¬ (idx ≤ i ∧ i - idx < ([] : List GenPage).length ∧
        e ∈ (([] : List GenPage).getD (i - idx) ⟨"", "", []⟩).entities) := by
      rintro ⟨-, hlen, -⟩
      simp at hlen
    rw [if_neg this]
    rfl
  | cons page rest ih =>
    simp only [storyLoopOk]
    rw [ih]
    rw [lookup_foldl_upd]
    by_cases hi : i = idx
    · subst hi
      have hc1 : ¬ (i + 1 ≤ i ∧ i - (i + 1) < rest.length ∧
          e ∈ (rest.getD (i - (i + 1)) ⟨"", "", []⟩).entities) := by
        rintro ⟨hcc, -, -⟩
        omega
      rw [if_neg hc1]
      by_cases hpe : e ∈ page.entities
      · have hm : e ∈ page.entities.filter (fun e => decide (lookupMap fa e = some i)) :=
          List.mem_filter.mpr ⟨hpe, by simp [hfa]⟩
        have hc2 : i ≤ i ∧ i - i < (page :: rest).length ∧
            e ∈ ((page :: rest).getD (i - i) ⟨"", "", []⟩).entities := by
          refine ⟨le_refl i, by simp, ?_⟩
          rw [Nat.sub_self]
          exact hpe
        rw [if_pos hm, if_pos hc2]
      · have hnm : e ∉ page.entities.filter (fun e => decide (lookupMap fa e = some i)) := by
          intro hm
          exact hpe (List.mem_filter.mp hm).1
        have hc2 : ¬ (i ≤ i ∧ i - i < (page :: rest).length ∧
            e ∈ ((page :: rest).getD (i - i) ⟨"", "", []⟩).entities) := by
          rintro ⟨-, -, hcc⟩
          rw [Nat.sub_self] at hcc
          exact hpe hcc
        rw [if_neg hnm, if_neg hc2]
    · have hnm : e ∉ page.entities.filter (fun e => decide (lookupMap fa e = some idx)) := by
        intro hm
        have := (List.mem_filter.mp hm).2
        rw [hfa] at this
        simp at this
        exact hi this
      rw [if_neg hnm]
      by_cases hlt : idx ≤ i
      · have hge : idx + 1 ≤ i := by omega
        have hgd : (page :: rest).getD (i - idx) ⟨"", "", []⟩ =
            rest.getD (i - idx - 1) ⟨"", "", []⟩ := by
          rcases Nat.exists_eq_add_of_le (show 1 ≤ i - idx by omega) with ⟨n, hn⟩
          rw [hn]
          simp [Nat.add_comm]
        by_cases hcnd : idx + 1 ≤ i ∧ i - (idx + 1) < rest.length ∧
            e ∈ (rest.getD (i - (idx + 1)) ⟨"", "", []⟩).entities
        · rw [if_pos hcnd]
          have hcnd2 : idx ≤ i ∧ i - idx < (page :: rest).length ∧
              e ∈ ((page :: rest).getD (i - idx) ⟨"", "", []⟩).entities := by
            refine ⟨hlt, by simp; omega, ?_⟩
            rw [hgd]
            have heq : i - idx - 1 = i - (idx + 1) := by omega
            rw [heq]
            exact hcnd.2.2
          rw [if_pos hcnd2]
        · rw [if_neg hcnd]
          have hcnd2 : ¬ (idx ≤ i ∧ i - idx < (page :: rest).length ∧
              e ∈ ((page :: rest).getD (i - idx) ⟨"", "", []⟩).entities) := by
            rintro ⟨-, hlen, hcc⟩
            rw [hgd] at hcc
            have heq : i - idx - 1 = i - (idx + 1) := by omega
            rw [heq] at hcc
            refine hcnd ⟨hge, ?_, hcc⟩
            simp at hlen
            omega
          rw [if_neg hcnd2]
      · have hc1 : ¬ (idx + 1 ≤ i ∧ i - (idx + 1) < rest.length ∧
            e ∈ (rest.getD (i - (idx + 1)) ⟨"", "", []⟩).entities) := by
          rintro ⟨hcc, -, -⟩
          omega
        have hc2 : ¬ (idx ≤ i ∧ i - idx < (page :: rest).length ∧
            e ∈ ((page :: rest).getD (i - idx) ⟨"", "", []⟩).entities) := by
          rintro ⟨hcc, -, -⟩
          exact hlt hcc
        rw [if_neg hc1, if_neg hc2]

/-- **C3** — First-write-wins for `entityFirstImageURLs`: after `k` pages
have been processed (all successfully, page `i` yielding URL `imgOf i`),
the entry for entity `e` is `imgOf i` exactly when `e` has first appearance
`i` and page `i` has already run (`i < k`), and absent otherwise.  Hence
the entry is written by exactly the page whose index is `e`'s first
appearance, and never changes afterwards — for all `m ≥ k > i` the value
stays `imgOf i`, even though `e` may reappear on later pages. -/
theorem reference_image_first_write (genPages : List GenPage) (imgOf : Nat → String)
    (e : String) (k : Nat) :
    lookupMap (urlsAfter genPages imgOf k) e =
      match lookupMap (entityFirstAppearance (genPages.map (fun p => p.entities))) e with
      | some i => if i < k then some (imgOf i) else none
      | none => none := by
  unfold urlsAfter
  rw [storyLoop_ok_eq]
  rw [entityFirstAppearance_lookup]
  cases hfp : firstPageIdx e (genPages.map (fun p => p.entities)) with
  | none =>
    rw [storyLoopOk_urls_none]
    · rfl
    · rw [entityFirstAppearance_lookup]
      exact hfp
  | some i =>
    rw [storyLoopOk_urls_some (i := i)]
    · have hred : (match some i with
          | some j => if j < k then some (imgOf j) else none
          | none => none) = if i < k then some (imgOf i) else none := rfl
      rw [hred]
      obtain ⟨h1, -⟩ := (firstPageIdx_eq_some_iff _ _ _).mp hfp
      have hi : i < genPages.length := by
        by_contra hk2
        rw [List.getD_eq_default _ _ (by simp; omega)] at h1
        cases h1
      by_cases hik : i < k
      · have htk : i - 0 < (genPages.take k).length := by
          rw [List.length_take]
          omega
        have hmem : e ∈ ((genPages.take k).getD (i - 0) ⟨"", "", []⟩).entities := by
          rw [List.getD_eq_getElem _ _ htk]
          rw [List.getElem_take]
          rw [List.getD_eq_getElem _ _ (by simp; omega)] at h1
          rw [List.getElem_map] at h1
          simpa using h1
        rw [if_pos ⟨Nat.zero_le i, htk, hmem⟩, if_pos hik]
      · have hcond : ¬ (0 ≤ i ∧ i - 0 < (genPages.take k).length ∧
            e ∈ ((genPages.take k).getD (i - 0) ⟨"", "", []⟩).entities) := by
          rintro ⟨-, hlen, -⟩
          rw [List.length_take] at hlen
          omega
        rw [if_neg hcond, if_neg hik]
        rfl
    · rw [entityFirstAppearance_lookup]
      exact hfp

theorem storyLoop_first_error (fa : List (String × Nat))
    (gen : Nat → Except String (String × Option String)) (ps : List GenPage)
    (idx k : Nat) (m : String) (urls : List (String × String)) (acc : List StoryPageT)
    (hok : ∀ j < k, (gen (idx + j)).isOk = true)
    (hfail : gen (idx + k) = .error m)
    (hk : k < ps.length) :
    storyLoop fa gen ps idx urls acc = .error m := by
  induction ps generalizing idx k urls acc with
  | nil => simp at hk
  | cons page rest ih =>
    cases k with
    | zero =>
      simp only [storyLoop]
      rw [show idx + 0 = idx from rfl] at hfail
      rw [hfail]
    | succ k2 =>
      have h0 : (gen idx).isOk = true := by
        have := hok 0 (Nat.succ_pos k2)
        simpa using this
      simp only [storyLoop]
      cases hg : gen idx with
      | error msg => rw [hg] at h0; cases h0
      | ok r =>
        obtain ⟨url, rp⟩ := r
        refine ih (idx + 1) k2 _ _ ?_ ?_ (by simpa using hk)
        · intro j hj
          have := hok (j + 1) (by omega)
          rw [show idx + (j + 1) = idx + 1 + j by omega] at this
          exact this
        · rw [show idx + 1 + k2 = idx + (k2 + 1) by omega]
          exact hfail

/-- **C4** — If image generation fails at page `k` (all earlier pages
succeeded), the whole `POST /api/stories` run fails: the handler's result
leaves the stored-story state unchanged and answers 500 with an `error`
field carrying the provider's thrown message, and the result does not
depend on the provider's behaviour on any page after `k` (remaining pages
are not attempted): any oracle agreeing up to `k` yields the same
outcome. -/
theorem generation_all_or_nothing (st : StorageState) (form : StoryForm)
    (genPages : List GenPage) (entities : List StoryEntityT)
    (gen gen2 : Nat → Except String (String × Option String)) (k : Nat) (m : String)
    (hok : ∀ j < k, (gen j).isOk = true)
    (hfail : gen k = .error m)
    (hk : k < genPages.length)
    (hagree : ∀ j ≤ k, gen2 j = gen j) :
    postStories st form genPages entities gen =
        (st, { status := 500, message := "Failed to create story", errorMsg := some m })
      ∧ postStories st form genPages entities gen2 =
        postStories st form genPages entities gen := by
  have herr : ∀ g : Nat → Except String (String × Option String),
      (∀ j ≤ k, g j = gen j) →
      postStories st form genPages entities g =
        (st, { status := 500, message := "Failed to create story", errorMsg := some m }) := by
    intro g hg
    unfold postStories
    rw [storyLoop_first_error _ g genPages 0 k m [] []
      (fun j hj => by rw [Nat.zero_add, hg j (by omega)]; exact hok j hj)
      (by rw [Nat.zero_add, hg k (le_refl k)]; exact hfail) hk]
  have h1 := herr gen (fun j _ => rfl)
  have h2 := herr gen2 hagree
  exact ⟨h1, by rw [h1, h2]⟩

/-- Witness for C4: a three-page story whose provider fails on page 1
(0-indexed) after page 0 succeeded; the store is unchanged, the response is
a 500 carrying the provider message, and changing the provider's behaviour
on page 2 changes nothing. -/
theorem generation_all_or_nothing_witness :
    postStories ⟨[], 1⟩ ⟨"t", "d", "adventure", "3-5", "anime", "standard"⟩
        [⟨"a", "p", ["fox"]⟩, ⟨"b", "q", []⟩, ⟨"c", "r", ["fox"]⟩] []
        (fun i => if i = 0 then .ok ("u0", none) else .error "provider down") =
      (⟨[], 1⟩, { status := 500, message := "Failed to create story",
                  errorMsg := some "provider down" }) := by
  have h := generation_all_or_nothing ⟨[], 1⟩ ⟨"t", "d", "adventure", "3-5", "anime", "standard"⟩
    [⟨"a", "p", ["fox"]⟩, ⟨"b", "q", []⟩, ⟨"c", "r", ["fox"]⟩] []
    (fun i => if i = 0 then .ok ("u0", none) else .error "provider down")
    (fun i => if i = 0 then .ok ("u0", none) else .error "provider down") 1 "provider down"
    (fun j hj => by interval_cases j; rfl) rfl (by simp)
    (fun j hj => rfl)
  exact h.1

/-!
## Lemmas: scene-variety directives (C5)
-/

theorem interiorPageIndex_eq (p : Nat) (hp : 2 ≤ p) : interiorPageIndex p = p - 2 := by
  unfold interiorPageIndex
  rw [max_eq_right (by omega : (0 : Int) ≤ (p : Int) - 2)]
  omega

/-- **C5** — Scene-variety directive selection is a pure function of page
position: page 1 always gets the fixed opening/wide-establishing-shot
directive (also when `pageCount = 1`, where the single page is first and
last at once: the first branch wins); the last page of a multi-page story
always gets the fixed warm/conclusive directive; an interior page `p`
(1-based; 0-based `pageIndex = p - 1`) draws its camera-angle and pose
directives from the two lists at index
`(pageIndex - 1) % listLength = (p - 2) % listLength`, so the directive
repeats with period `listLength` across interior pages. -/
theorem scene_directives_correct (p total : Nat) :
    ((sceneDirectives 1 total).sceneVariation =
        "This is the OPENING scene - establish the setting and introduce main characters."
      ∧ (sceneDirectives 1 total).compositionGuidance =
        "wide establishing shot showing the full scene and environment")
    ∧ (2 ≤ total → (sceneDirectives total total).compositionGuidance =
        "warm, uplifting composition focusing on character emotions")
    ∧ (2 ≤ p → p ≠ total →
        (sceneDirectives p total).compositionGuidance =
            CAMERA_ANGLES.getD ((p - 2) % CAMERA_ANGLES.length) ""
          ∧ (sceneDirectives p total).poseDirective =
            POSE_VARIETY.getD ((p - 2) % POSE_VARIETY.length) "")
    ∧ (2 ≤ p → p ≠ total → p + CAMERA_ANGLES.length ≠ total →
        (sceneDirectives (p + CAMERA_ANGLES.length) total).compositionGuidance =
          (sceneDirectives p total).compositionGuidance)
    ∧ (2 ≤ p → p ≠ total → p + POSE_VARIETY.length ≠ total →
        (sceneDirectives (p + POSE_VARIETY.length) total).poseDirective =
          (sceneDirectives p total).poseDirective) := by
  have hcam : ∀ q, 2 ≤ q → q ≠ total →
      (sceneDirectives q total).compositionGuidance =
        CAMERA_ANGLES.getD ((q - 2) % CAMERA_ANGLES.length) "" := by
    intro q hq hqt
    simp only [sceneDirectives]
    rw [if_neg (by omega : ¬ q = 1), if_neg hqt]
    show cameraAngle q = _
    rw [cameraAngle, interiorPageIndex_eq q hq]
  have hpose : ∀ q, 2 ≤ q → q ≠ total →
      (sceneDirectives q total).poseDirective =
        POSE_VARIETY.getD ((q - 2) % POSE_VARIETY.length) "" := by
    intro q hq hqt
    simp only [sceneDirectives]
    rw [if_neg (by omega : ¬ q = 1), if_neg hqt]
    show poseStyle q = _
    rw [poseStyle, interiorPageIndex_eq q hq]
  refine ⟨⟨by simp [sceneDirectives], by simp [sceneDirectives]⟩, ?_, ?_, ?_, ?_⟩
  · intro h
    simp only [sceneDirectives]
    rw [if_neg (by omega : ¬ total = 1)]
    simp
  · intro hp hpt
    exact ⟨hcam p hp hpt, hpose p hp hpt⟩
  · intro hp hpt hct
    rw [hcam (p + CAMERA_ANGLES.length) (by omega) hct, hcam p hp hpt]
    congr 1
    have h7 : CAMERA_ANGLES.length = 7 := rfl
    rw [h7]
    omega
  · intro hp hpt hct
    rw [hpose (p + POSE_VARIETY.length) (by omega) hct, hpose p hp hpt]
    congr 1
    have h5 : POSE_VARIETY.length = 5 := rfl
    rw [h5]
    omega

/-- Witness for C5: interior page 3 of 10 uses camera angle
`(3 - 2) % 7 = 1`; page 10 of 10 gets the warm conclusive composition;
a one-page story gets the first-page composition. -/
theorem scene_directives_correct_witness :
    (sceneDirectives 3 10).compositionGuidance =
        CAMERA_ANGLES.getD ((3 - 2) % CAMERA_ANGLES.length) ""
      ∧ (sceneDirectives 10 10).compositionGuidance =
        "warm, uplifting composition focusing on character emotions"
      ∧ (sceneDirectives 1 1).compositionGuidance =
        "wide establishing shot showing the full scene and environment" := by
  have h3 := scene_directives_correct 3 10
  have h1 := scene_directives_correct 1 1
  exact ⟨(h3.2.2.1 (by decide) (by decide)).1, h3.2.1 (by decide), h1.1.2⟩

/-!
## The color-mode directive (C6)
-/

set_option maxRecDepth 8000 in
set_option maxRecDepth 8000 in
/-- **C6** (refuted by the code) — The grayscale directive is never
injected: the final composed prompt and the full provider payload are
identical whether `colorMode` is `"monochrome"` or `"color"`, for every
option record and every download oracle; `getColorModeDescription` does
produce a non-empty grayscale directive for `"monochrome"`, but no code
path ever calls it (`generateImage` forwards `colorMode` to
`GeminiService.generateImage`, whose options type has no such field and
which never reads it), and at a concrete monochrome request the directive
does not occur in the composed prompt at all. -/
theorem colorMode_directive_never_applied (opts : GenerateImageOptions)
    (download : String → Except String String) :
    finalWrappedPrompt { opts with colorMode := some "monochrome" } =
        finalWrappedPrompt { opts with colorMode := some "color" }
      ∧ geminiContents (geminiRequestOf { opts with colorMode := some "monochrome" }) download =
        geminiContents (geminiRequestOf { opts with colorMode := some "color" }) download
      ∧ getColorModeDescription "monochrome" ≠ ""
      ∧ strIncludes
          (finalWrappedPrompt { prompt := "A fox walking in the forest",
                                colorMode := some "monochrome" })
          (getColorModeDescription "monochrome") = false := by
  refine ⟨rfl, rfl, by decide, by decide⟩

/-!
## Lemmas: Gemini request assembly (C7, C10)
-/

theorem geminiRefParts_all_images (download : String → Except String String)
    (paths : List String) :
    ∀ part ∈ geminiRefParts download paths, ∃ b, part = ContentPart.image b := by
  induction paths with
  | nil => intro part h; cases h
  | cons p rest ih =>
    intro part h
    simp only [geminiRefParts] at h
    cases hd : download p with
    | ok buf =>
      rw [hd] at h
      rcases List.mem_cons.mp h with rfl | hm
      · exact ⟨buf, rfl⟩
      · exact ih part hm
    | error e =>
      rw [hd] at h
      exact ih part h

theorem mem_geminiRefParts (download : String → Except String String)
    (paths : List String) (p : String) (b : String)
    (hp : p ∈ paths) (hb : download p = .ok b) :
    ContentPart.image b ∈ geminiRefParts download paths := by
  induction paths with
  | nil => cases hp
  | cons q rest ih =>
    rcases List.mem_cons.mp hp with rfl | hm
    · simp only [geminiRefParts, hb]
      exact List.mem_cons_self ..
    · simp only [geminiRefParts]
      cases hd : download q with
      | ok buf => exact List.mem_cons_of_mem _ (ih hm)
      | error e => exact ih hm

/-- **C7** — Whenever reference images are available for a page, the
composed request prepends the strict-visual-ground-truth instruction to the
prompt, and every reference image precedes the textual prompt in the
payload: the last element of `contents` is the text part (and nothing
follows it), every earlier element is an image part, and every successfully
downloaded reference appears among those leading image parts. -/
theorem reference_images_lead_payload (opts : GenerateImageOptions)
    (download : String → Except String String)
    (hpaths : resolvedRefPaths opts ≠ []) :
    finalWrappedPrompt opts = REFERENCE_INSTRUCTION ++ wrappedPromptBase opts
    ∧ (geminiContents (geminiRequestOf opts) download).getLast? =
        some (ContentPart.text (finalWrappedPrompt opts))
    ∧ (∀ part ∈ (geminiContents (geminiRequestOf opts) download).dropLast,
        ∃ b, part = ContentPart.image b)
    ∧ (∀ p ∈ resolvedRefPaths opts, ∀ b, download p = .ok b →
        ContentPart.image b ∈ (geminiContents (geminiRequestOf opts) download).dropLast) := by
  have hlen : 0 < (resolvedRefPaths opts).length := List.length_pos.mpr hpaths
  refine ⟨?_, ?_, ?_, ?_⟩
  · rw [finalWrappedPrompt, if_pos hlen]
  · rw [geminiContents, List.getLast?_concat]
    rfl
  · intro part hpart
    rw [geminiContents, List.dropLast_concat] at hpart
    exact geminiRefParts_all_images download _ part hpart
  · intro p hp b hb
    rw [geminiContents, List.dropLast_concat]
    exact mem_geminiRefParts download _ p b hp hb

/-- Witness for C7 at a concrete request with one reference path whose
download succeeds. -/
theorem reference_images_lead_payload_witness :
    (geminiContents
        (geminiRequestOf { prompt := "scene", characterReferencePaths := some ["ref.png"] })
        (fun _ => .ok "BYTES")).getLast? =
      some (ContentPart.text (finalWrappedPrompt
        { prompt := "scene", characterReferencePaths := some ["ref.png"] }))
    ∧ ContentPart.image "BYTES" ∈
        (geminiContents
          (geminiRequestOf { prompt := "scene", characterReferencePaths := some ["ref.png"] })
          (fun _ => .ok "BYTES")).dropLast := by
  have h := reference_images_lead_payload
    { prompt := "scene", characterReferencePaths := some ["ref.png"] }
    (fun _ => .ok "BYTES") (by decide)
  exact ⟨h.2.1, h.2.2.2 "ref.png" (by decide) "BYTES" rfl⟩

theorem geminiRefParts_filter_ok (download : String → Except String String)
    (paths : List String) :
    geminiRefParts download (paths.filter (fun p => (download p).isOk)) =
      geminiRefParts download paths := by
  induction paths with
  | nil => rfl
  | cons p rest ih =>
    simp only [List.filter_cons]
    cases hd : download p with
    | ok buf =>
      rw [if_pos (show (Except.ok buf : Except String String).isOk = true from rfl)]
      simp only [geminiRefParts, hd, ih]
    | error e =>
      rw [if_neg (show ¬ (Except.error e : Except String String).isOk = true from by
        simp [Except.isOk, Except.toBool])]
      simp only [geminiRefParts, hd, ih]

/-- **C10** — A failed reference-image download never fails the
image-generation call: the whole `GeminiService.generateImage` computation
(request assembly, provider call, response handling) is identical to the
one in which the unreadable paths were never requested, so the provider
request simply proceeds with the remaining (possibly zero) reference
images. -/
theorem failed_reference_download_skipped (req : GeminiImageRequest)
    (download : String → Except String String)
    (provider : List ContentPart → Except String GeminiResponse)
    (upload : String → String) :
    geminiGenerateImage req download provider upload =
      geminiGenerateImage
        { req with referenceImagePaths :=
            req.referenceImagePaths.filter (fun p => (download p).isOk) }
        download provider upload := by
  unfold geminiGenerateImage geminiContents
  rw [geminiRefParts_filter_ok]

/-!
## Lemmas: prompt template branching (C8)
-/

theorem mem_joinSep_data (sep : String) (l : List String) (x : String) (h : x ∈ l) :
    x.data <:+: (joinSep sep l).data := by
  induction l with
  | nil => cases h
  | cons a l ih =>
    rcases List.mem_cons.mp h with rfl | hm
    · cases l with
      | nil => exact ⟨[], [], by simp [joinSep]⟩
      | cons b t =>
        exact ⟨[], (sep ++ joinSep sep (b :: t)).data, by
          simp [joinSep, String.data_append, List.append_assoc]⟩
    · have hl : l ≠ [] := by rintro rfl; cases hm
      obtain ⟨u, v, huv⟩ := ih hm
      cases l with
      | nil => cases hm
      | cons b t =>
        exact ⟨(a ++ sep).data ++ u, v, by
          simp only [joinSep, String.data_append, List.append_assoc]
          rw [← huv]
          simp [List.append_assoc]⟩

/-- **C8** — `wrappedPrompt` branches on `isFirstPage`: a first page's
prompt contains the establish-definitive-character-designs directive, and a
non-first page's prompt contains the match-exactly directive and names every
character entity explicitly. -/
theorem prompt_branches_on_first_page (opts : GenerateImageOptions) :
    (resolvedIsFirstPage opts = true →
      ESTABLISH_DIRECTIVE.data <:+: (wrappedPromptBase opts).data)
    ∧ (resolvedIsFirstPage opts = false →
        MATCH_DIRECTIVE.data <:+: (wrappedPromptBase opts).data
      ∧ ∀ ent ∈ characterEntitiesOf opts,
          ent.name.data <:+: (wrappedPromptBase opts).data) := by
  constructor
  · intro hfp
    simp only [wrappedPromptBase, hfp, if_true]
    have hmid : WP_FIRST_MID = "\n\n" ++ ESTABLISH_DIRECTIVE ++ "\n\n=== SCENE ===\n" := by
      decide
    rw [hmid]
    refine ⟨(WP_HEADER ++ getArtStyleDescription (resolvedArtStyle opts) ++ "\n\n").data,
      ("\n\n=== SCENE ===\n" ++ trimmedFinalPrompt (finalPromptOf opts)
        ++ characterConsistencyBlock (characterEntitiesOf opts) ++ WP_FIRST_REQS).data, ?_⟩
    simp [String.data_append, List.append_assoc]
  · intro hfp
    simp only [wrappedPromptBase, hfp, Bool.false_eq_true, if_false]
    have hpost : WP_CRITICAL_POST = ") " ++ MATCH_DIRECTIVE ++ "\n\n=== SCENE ===\n" := by
      decide
    constructor
    · rw [hpost]
      refine ⟨(WP_HEADER ++ getArtStyleDescription (resolvedArtStyle opts) ++ WP_CRITICAL_PRE
          ++ joinSep ", " ((characterEntitiesOf opts).map (fun e => e.name)) ++ ") ").data,
        ("\n\n=== SCENE ===\n" ++ trimmedFinalPrompt (finalPromptOf opts)
          ++ characterConsistencyBlock (characterEntitiesOf opts) ++ WP_MATCH_REQS).data, ?_⟩
      simp [String.data_append, List.append_assoc]
    · intro ent hent
      have hname : ent.name ∈ (characterEntitiesOf opts).map (fun e => e.name) :=
        List.mem_map_of_mem _ hent
      obtain ⟨u, v, huv⟩ := mem_joinSep_data ", " _ _ hname
      refine ⟨(WP_HEADER ++ getArtStyleDescription (resolvedArtStyle opts)
          ++ WP_CRITICAL_PRE).data ++ u,
        v ++ (WP_CRITICAL_POST ++ trimmedFinalPrompt (finalPromptOf opts)
          ++ characterConsistencyBlock (characterEntitiesOf opts) ++ WP_MATCH_REQS).data, ?_⟩
      simp only [String.data_append, List.append_assoc]
      rw [← huv]
      simp [List.append_assoc]

/-- Witness for C8: with one character entity on a non-first page, the
match-exactly directive and the character's name occur in the prompt; on a
first page the establish directive occurs. -/
theorem prompt_branches_on_first_page_witness :
    ESTABLISH_DIRECTIVE.data <:+: (wrappedPromptBase { prompt := "p", isFirstPage := some true }).data
    ∧ MATCH_DIRECTIVE.data <:+: (wrappedPromptBase { prompt := "p", entities := some [⟨"rob", "Robo", "character", "a silver robot"⟩], isFirstPage := some false }).data
    ∧ ("Robo" : String).data <:+: (wrappedPromptBase { prompt := "p", entities := some [⟨"rob", "Robo", "character", "a silver robot"⟩], isFirstPage := some false }).data := by
  have h1 := prompt_branches_on_first_page { prompt := "p", isFirstPage := some true }
  have h2 := prompt_branches_on_first_page { prompt := "p", entities := some [⟨"rob", "Robo", "character", "a silver robot"⟩], isFirstPage := some false }
  refine ⟨h1.1 rfl, (h2.2 rfl).1, ?_⟩
  have hm := (h2.2 rfl).2 ⟨"rob", "Robo", "character", "a silver robot"⟩ (by decide)
  exact hm

/-!
## Lemmas: prompt length budget and compact character summaries (C9)
-/

theorem dropPre_eq (a : List Char) : ∀ (s rem : List Char), dropPre a s = some rem →
    s = a ++ rem := by
  induction a with
  | nil =>
    intro s rem h
    simp only [dropPre, Option.some.injEq] at h
    simpa using h
  | cons c a ih =>
    intro s rem h
    cases s with
    | nil => simp [dropPre] at h
    | cons d s2 =>
      simp only [dropPre] at h
      by_cases hc : c = d
      · rw [if_pos hc] at h
        have h2 := ih s2 rem h
        rw [List.cons_append, ← hc, h2]
      · rw [if_neg hc] at h
        cases h

theorem tryAlts_sound (alts : List (List Char)) (s : List Char) (w : List Char)
    (h : tryAlts alts s = some w) : w ∈ alts ∧ ∃ rem, s = w ++ rem := by
  induction alts with
  | nil => cases h
  | cons a rest ih =>
    cases a with
    | nil =>
      simp only [tryAlts] at h
      obtain ⟨h1, h2⟩ := ih h
      exact ⟨List.mem_cons_of_mem _ h1, h2⟩
    | cons c as =>
      simp only [tryAlts] at h
      split at h
      next rem hd =>
        split at h
        next hh =>
          injection h with h
          subst h
          exact ⟨List.mem_cons_self .., rem, dropPre_eq _ _ _ hd⟩
        next ch hh =>
          split at h
          next hw =>
            obtain ⟨h1, h2⟩ := ih h
            exact ⟨List.mem_cons_of_mem _ h1, h2⟩
          next hw =>
            injection h with h
            subst h
            exact ⟨List.mem_cons_self .., rem, dropPre_eq _ _ _ hd⟩
      next hd =>
        obtain ⟨h1, h2⟩ := ih h
        exact ⟨List.mem_cons_of_mem _ h1, h2⟩

theorem scanWordsGo_sound (alts : List (List Char)) (fuel : Nat) :
    ∀ (prev : Bool) (s : List Char) (w : List Char), w ∈ scanWordsGo alts fuel prev s →
      w ∈ alts ∧ w <:+: s := by
  induction fuel with
  | zero => intro prev s w h; cases h
  | succ fuel ih =>
    intro prev s w h
    cases s with
    | nil => cases h
    | cons c rest =>
      cases prev with
      | true =>
        simp only [scanWordsGo, if_pos rfl] at h
        obtain ⟨h1, u, v, huv⟩ := ih (isWordChar c) rest w h
        exact ⟨h1, c :: u, v, by rw [← huv]; rfl⟩
      | false =>
        simp only [scanWordsGo] at h
        rw [if_neg (by simp)] at h
        cases hta : tryAlts alts (c :: rest) with
        | none =>
          rw [hta] at h
          obtain ⟨h1, u, v, huv⟩ := ih (isWordChar c) rest w h
          exact ⟨h1, c :: u, v, by rw [← huv]; rfl⟩
        | some w2 =>
          rw [hta] at h
          rcases List.mem_cons.mp h with rfl | hm
          · obtain ⟨h1, rem, hrem⟩ := tryAlts_sound alts (c :: rest) w hta
            exact ⟨h1, [], rem, by rw [hrem]; simp⟩
          · obtain ⟨h1, hinf⟩ := ih true _ w hm
            refine ⟨h1, hinf.trans ?_⟩
            exact (List.drop_suffix _ _).isInfix

theorem regexWordMatches_sound (words : List String) (s : String) (w : String)
    (h : w ∈ regexWordMatches words s) : w ∈ words ∧ w.data <:+: s.data := by
  simp only [regexWordMatches, List.mem_map] at h
  obtain ⟨l, hl, rfl⟩ := h
  obtain ⟨h1, h2⟩ := scanWordsGo_sound _ _ _ _ _ hl
  obtain ⟨ws, hws, hwd⟩ := List.mem_map.mp h1
  constructor
  · have : (⟨l⟩ : String) = ws := by
      rw [← hwd]
    rw [this]
    exact hws
  · exact h2

theorem materialClass_mem (desc : String) :
    materialClass desc ∈ ["standard", "metallic/robotic", "furry", "feathered"] := by
  unfold materialClass
  split_ifs <;> simp

theorem foldl_block_prefix (chars : List StoryEntityT) :
    ∀ acc : String, ∃ t,
      (chars.foldl (fun block char => block ++ charConsistencyLine char) acc).data =
        acc.data ++ t := by
  induction chars with
  | nil => intro acc; exact ⟨[], by simp⟩
  | cons a l ih =>
    intro acc
    obtain ⟨t, ht⟩ := ih (acc ++ charConsistencyLine a)
    exact ⟨(charConsistencyLine a).data ++ t, by
      simp only [List.foldl_cons, ht, String.data_append, List.append_assoc]⟩

theorem charLine_infix_foldl (chars : List StoryEntityT) (char : StoryEntityT)
    (h : char ∈ chars) :
    ∀ acc : String, (charConsistencyLine char).data <:+:
      (chars.foldl (fun block char => block ++ charConsistencyLine char) acc).data := by
  induction chars with
  | nil => cases h
  | cons a l ih =>
    intro acc
    rcases List.mem_cons.mp h with rfl | hm
    · obtain ⟨t, ht⟩ := foldl_block_prefix l (acc ++ charConsistencyLine char)
      simp only [List.foldl_cons]
      rw [ht, String.data_append]
      exact ⟨acc.data, t, by simp [List.append_assoc]⟩
    · simp only [List.foldl_cons]
      exact ih hm _

theorem charLine_infix_block (chars : List StoryEntityT) (char : StoryEntityT)
    (h : char ∈ chars) :
    (charConsistencyLine char).data <:+: (characterConsistencyBlock chars).data := by
  have hne : chars.isEmpty = false := by
    cases chars with
    | nil => cases h
    | cons a l => rfl
  simp only [characterConsistencyBlock, hne, Bool.false_eq_true, if_false]
  obtain ⟨u, v, huv⟩ := charLine_infix_foldl chars char h
    "\n\nCHARACTER DESIGN SPECIFICATIONS:\n"
  exact ⟨u, v ++ ("\nMAINTAIN EXACT APPEARANCE: Colors, shapes, and materials must be identical in every scene.\n" : String).data, by
    rw [String.data_append, ← huv]
    simp [List.append_assoc]⟩

/-- **C9** — The composed prompt respects the hard length budget: an
assembled scene prompt longer than `MAX_PROMPT_LENGTH - WRAPPER_LENGTH`
is truncated to exactly that budget, namely a prefix of the original
followed by the `"..."` marker, and a prompt within budget passes through
unchanged.  Each character entity contributes the compact
`name: colors | shape | material` line to the consistency block: at most 3
color keywords and at most 2 shape keywords (each a whole-word match
actually occurring in the lower-cased description), and one of the four
material classes — never the full description. -/
theorem prompt_budget_and_summaries (s : String) (char : StoryEntityT)
    (chars : List StoryEntityT) :
    (availableLength < s.length →
        (trimmedFinalPrompt s).length = MAX_PROMPT_LENGTH - WRAPPER_LENGTH
      ∧ ∃ t, trimmedFinalPrompt s = t ++ "..." ∧ t.data <+: s.data
          ∧ t.length = availableLength - 3)
    ∧ (s.length ≤ availableLength → trimmedFinalPrompt s = s)
    ∧ ((regexWordMatches COLOR_WORDS (toLowerStr char.description)).take 3).length ≤ 3
    ∧ (∀ w ∈ (regexWordMatches COLOR_WORDS (toLowerStr char.description)).take 3,
        w ∈ COLOR_WORDS ∧ w.data <:+: (toLowerStr char.description).data)
    ∧ ((regexWordMatches SHAPE_WORDS (toLowerStr char.description)).take 2).length ≤ 2
    ∧ (∀ w ∈ (regexWordMatches SHAPE_WORDS (toLowerStr char.description)).take 2,
        w ∈ SHAPE_WORDS ∧ w.data <:+: (toLowerStr char.description).data)
    ∧ materialClass (toLowerStr char.description) ∈
        ["standard", "metallic/robotic", "furry", "feathered"]
    ∧ (char ∈ chars →
        (charConsistencyLine char).data <:+: (characterConsistencyBlock chars).data) := by
  refine ⟨?_, ?_, List.length_take_le .., ?_, List.length_take_le .., ?_, materialClass_mem _,
    charLine_infix_block chars char⟩
  · intro hlong
    constructor
    · simp only [trimmedFinalPrompt, if_pos hlong]
      rw [String.length_append]
      show (s.data.take (availableLength - 3)).length + 3 = MAX_PROMPT_LENGTH - WRAPPER_LENGTH
      rw [List.length_take]
      have hs : s.length = s.data.length := rfl
      simp only [availableLength, MAX_PROMPT_LENGTH, WRAPPER_LENGTH] at *
      omega
    · refine ⟨⟨s.data.take (availableLength - 3)⟩, ?_, List.take_prefix .., ?_⟩
      · simp only [trimmedFinalPrompt, if_pos hlong]
      · show (s.data.take (availableLength - 3)).length = availableLength - 3
        rw [List.length_take]
        have hs : s.length = s.data.length := rfl
        simp only [availableLength, MAX_PROMPT_LENGTH, WRAPPER_LENGTH] at *
        omega
  · intro hshort
    rw [trimmedFinalPrompt, if_neg (Nat.not_lt.mpr hshort)]
  · intro w hw
    exact regexWordMatches_sound _ _ _ (List.mem_of_mem_take hw)
  · intro w hw
    exact regexWordMatches_sound _ _ _ (List.mem_of_mem_take hw)

set_option maxRecDepth 8000 in
/-- Witness for C9 at a concrete long prompt (900 characters) and a
concrete character description. -/
theorem prompt_budget_and_summaries_witness :
    (trimmedFinalPrompt ⟨List.replicate 900 'a'⟩).length =
        MAX_PROMPT_LENGTH - WRAPPER_LENGTH
    ∧ trimmedFinalPrompt "short prompt" = "short prompt"
    ∧ materialClass (toLowerStr "a silver round robot") ∈
        ["standard", "metallic/robotic", "furry", "feathered"]
    ∧ (charConsistencyLine ⟨"rob", "Robo", "character", "a silver round robot"⟩).data <:+:
        (characterConsistencyBlock
          [⟨"rob", "Robo", "character", "a silver round robot"⟩]).data := by
  have h1 := prompt_budget_and_summaries ⟨List.replicate 900 'a'⟩
    ⟨"rob", "Robo", "character", "a silver round robot"⟩
    [⟨"rob", "Robo", "character", "a silver round robot"⟩]
  have h2 := prompt_budget_and_summaries "short prompt"
    ⟨"rob", "Robo", "character", "a silver round robot"⟩
    [⟨"rob", "Robo", "character", "a silver round robot"⟩]
  refine ⟨(h1.1 (by decide)).1, h2.2.1 (by decide), h1.2.2.2.2.2.2.1,
    h1.2.2.2.2.2.2.2 (by decide)⟩

end StorySpark











